import Mathlib

/-!
Verification development for the cash-flow forecasting backend
(`src/backend/app.py`).  The Flask route `forecast` is embedded shallowly:

* the uploaded table is taken after the external `read_csv` / `read_excel`
  step, as a header list plus rows of cells;
* pandas cells are modelled by `Cell V`: a numeric value (carrier `V`),
  a string, a parsed calendar date, or the missing marker `Cell.na`
  (covering both `NaN` and `NaT`);
* the numeric carrier `V` is abstract (`NumOps`): floats are modelled by
  `ℚ` via `ratOps`; the integer instance `intOps` is used to evaluate the
  pipeline on concrete integer-valued tables (rounding to two decimals is
  the identity on integers);
* the external statsmodels fitting capability is a parameter (`Oracle`):
  a function from a month-indexed series to either 12 forecast points or
  a failure message, one oracle for the primary additive-trend model and
  one for the simple-smoothing fallback;
* Python exceptions are modelled by `Except String`; the route's outer
  `try/except` turns an error into a 500 response.
-/

namespace CashFlowLDC

/-! ## Numeric carrier -/

/-- Operations the pipeline needs from its numeric values.  `round2` models
`np.round (·, 2)`; `zero` is an arbitrary default never reached on
well-formed frames. -/
structure NumOps (V : Type) where
  zero : V
  add : V → V → V
  round2 : V → V

/-- Rounding to two decimal places on `ℚ`, modelling `np.round (x, 2)`.
(The tie-breaking rule differs from numpy's half-to-even at exact ties,
which no verified property depends on.) -/
def ratRound2 (q : ℚ) : ℚ := ((round (q * 100) : ℤ) : ℚ) / 100

/-- Floats of the original program modelled as rationals. -/
def ratOps : NumOps ℚ := ⟨0, (· + ·), ratRound2⟩

/-- Integer-grid instantiation, used to run the pipeline on concrete
integer-valued tables: integers are exact two-decimal values, so
`np.round (·, 2)` is the identity on them. -/
def intOps : NumOps ℤ := ⟨0, (· + ·), id⟩

/-! ## String primitives

The Python string primitives used by the backend (`str.strip`,
`str.endswith`, fixed-format date parsing) are modelled over character
lists. -/

/-- ASCII whitespace recognised by `str.strip`. -/
def isWS (c : Char) : Bool := c = ' ' || c = '\t' || c = '\n' || c = '\r'

/-- Models Python `str.strip()` (header trimming in Step 2). -/
def pyStrip (s : String) : String :=
  ⟨((s.data.dropWhile isWS).reverse.dropWhile isWS).reverse⟩

/-- Models Python `str.endswith`. -/
def strEndsWith (s suf : String) : Bool := suf.data.isSuffixOf s.data

/-- Split a character list at every occurrence of `c`. -/
def splitCh (c : Char) : List Char → List (List Char)
  | [] => [[]]
  | x :: xs =>
    let r := splitCh c xs
    if x = c then [] :: r
    else
      match r with
      | [] => [[x]]
      | h :: t => (x :: h) :: t

/-- Split a string at the dash separator used by both date formats. -/
def splitDash (s : String) : List String :=
  (splitCh '-' s.data).map (fun l => ⟨l⟩)

/-- Value of a non-empty all-digit character list, `none` otherwise. -/
def digitsVal (l : List Char) : Option ℕ :=
  if l = [] then none
  else if l.all Char.isDigit then
    some (l.foldl (fun acc c => acc * 10 + (c.toNat - 48)) 0)
  else none

/-- Decimal digits of `n`, most significant first (`fuel` bounds the
recursion; it is always supplied as `n + 1`). -/
def natDigitsAux : ℕ → ℕ → List Char
  | 0, _ => []
  | fuel + 1, n =>
    if n = 0 then [] else natDigitsAux fuel (n / 10) ++ [Char.ofNat (48 + n % 10)]

/-- Decimal rendering of a natural number (for `strftime`'s `%Y`). -/
def natToStr (n : ℕ) : String :=
  if n = 0 then "0" else ⟨natDigitsAux (n + 1) n⟩

/-! ## Calendar dates -/

/-- A calendar date at day resolution: `ym` is the absolute month count
`year * 12 + monthIndex` (month index `0`–`11`), `day` is 1-based.  All
dates produced by the primary format and by the horizon builder have
`day = 1`. -/
structure MDate where
  ym : ℕ
  day : ℕ
deriving DecidableEq

/-- Abbreviated month names as produced and consumed by `%b`. -/
def monthAbbrevs : List String :=
  ["Jan", "Feb", "Mar", "Apr", "May", "Jun",
   "Jul", "Aug", "Sep", "Oct", "Nov", "Dec"]

/-- Month index (0-based) of a `%b` month abbreviation. -/
def monthIdx? (s : String) : Option ℕ :=
  monthAbbrevs.findIdx? (fun m => m = s)

/-- Century rule of `strptime`'s `%y`: 00–68 map to 2000–2068, 69–99 to
1969–1999. -/
def yearOfTwoDigit (n : ℕ) : ℕ := if n ≤ 68 then 2000 + n else 1900 + n

/-- Gregorian leap-year rule (used to validate `%d`). -/
def isLeap (y : ℕ) : Bool := (y % 4 = 0 && !(y % 100 = 0)) || y % 400 = 0

/-- Days in month `m` (0-based) of year `y`. -/
def daysInMonth (y m : ℕ) : ℕ :=
  if m = 1 then (if isLeap y then 29 else 28)
  else if m = 3 || m = 5 || m = 8 || m = 10 then 30
  else 31

/-- Models `pd.to_datetime (·, format := "%y-%b")` on one string: a
two-digit year, a dash, and a month abbreviation; the day defaults to the
first of the month. -/
def parseYYMon (s : String) : Option MDate :=
  match splitDash s with
  | [ys, ms] =>
    match digitsVal ys.data, monthIdx? ms with
    | some y, some m =>
      if ys.data.length ≤ 2 then some ⟨yearOfTwoDigit y * 12 + m, 1⟩ else none
    | _, _ => none
  | _ => none

/-- Models `pd.to_datetime (·, format := "%d-%b-%y")` on one string:
day, month abbreviation and two-digit year, with the day validated
against the calendar. -/
def parseDDMonYY (s : String) : Option MDate :=
  match splitDash s with
  | [ds, ms, ys] =>
    match digitsVal ds.data, monthIdx? ms, digitsVal ys.data with
    | some d, some m, some y =>
      if ds.data.length ≤ 2 && ys.data.length ≤ 2 && 1 ≤ d &&
          d ≤ daysInMonth (yearOfTwoDigit y) m then
        some ⟨yearOfTwoDigit y * 12 + m, d⟩
      else none
    | _, _, _ => none
  | _ => none

/-- Models `strftime "%b-%Y"`, the display format for month labels. -/
def fmtBY (d : MDate) : String :=
  monthAbbrevs.getD (d.ym % 12) "Jan" ++ "-" ++ natToStr (d.ym / 12)

/-- Chronological sort key of a date (days are below 32). -/
def mdateKey (d : MDate) : ℕ := d.ym * 32 + d.day

/-! ## Cells and dataframes -/

/-- One pandas cell: numeric, string, parsed datetime, or missing
(`na` covers both `NaN` and `NaT`).  Numeric strings of the source file
are represented directly as `num` cells, matching what `pd.to_numeric`
recovers from them. -/
inductive Cell (V : Type) where
  | num (v : V)
  | str (s : String)
  | date (d : MDate)
  | na
deriving DecidableEq

/-- Is the cell the missing marker? -/
def Cell.isNa {V : Type} : Cell V → Bool
  | .na => true
  | _ => false

/-- A dataframe: named columns over rows of cells. -/
structure DF (V : Type) where
  headers : List String
  rows : List (List (Cell V))
deriving DecidableEq

/-- Index of the first column with the given name. -/
def colIdx? {V : Type} (df : DF V) (name : String) : Option ℕ :=
  df.headers.findIdx? (fun h => h = name)

/-- Column at a fixed index (missing cells read as `na`). -/
def getIdxCol {V : Type} (df : DF V) (i : ℕ) : List (Cell V) :=
  df.rows.map (fun r => r.getD i Cell.na)

/-- The cells of column `j` of a bare row list. -/
def colOf {V : Type} (rows : List (List (Cell V))) (j : ℕ) : List (Cell V) :=
  rows.map (fun r => r.getD j Cell.na)

/-- A dataframe is rectangular: every row spans exactly the headers.
`read_csv` / `read_excel` only produce rectangular frames, so uploaded
tables satisfy this. -/
def Rect {V : Type} (df : DF V) : Prop :=
  ∀ r ∈ df.rows, r.length = df.headers.length

/-- Column by name, empty when the name is absent. -/
def getColD {V : Type} (df : DF V) (name : String) : List (Cell V) :=
  match colIdx? df name with
  | some i => getIdxCol df i
  | none => []

/-- Column read `df[name]`; a missing column raises `KeyError`. -/
def getColE {V : Type} (df : DF V) (name : String) :
    Except String (List (Cell V)) :=
  match colIdx? df name with
  | some i => .ok (getIdxCol df i)
  | none => .error ("KeyError: " ++ name)

/-- In-place column transform `df[name] = g (df[name])`; reading a missing
column raises `KeyError`. -/
def mapColE {V : Type} (df : DF V) (name : String) (g : Cell V → Cell V) :
    Except String (DF V) :=
  match colIdx? df name with
  | some i =>
    .ok { df with rows := df.rows.map (fun r => r.set i (g (r.getD i Cell.na))) }
  | none => .error ("KeyError: " ++ name)

/-- Column assignment `df[name] = col`: overwrite an existing column or
append a new one at the right edge of the frame. -/
def setCol {V : Type} (df : DF V) (name : String) (col : List (Cell V)) : DF V :=
  match colIdx? df name with
  | some i =>
    { df with rows := List.zipWith (fun r c => r.set i c) df.rows col }
  | none =>
    { headers := df.headers ++ [name]
    , rows := List.zipWith (fun r c => r ++ [c]) df.rows col }

/-- Drop the rows holding `na` at any of the given column indices. -/
def dropnaIdx {V : Type} (df : DF V) (is : List ℕ) : DF V :=
  { df with rows := df.rows.filter (fun r => is.all (fun i => !(r.getD i Cell.na).isNa)) }

/-- Resolve a list of column names to indices (`none` if any is absent). -/
def resolveIdx {V : Type} (df : DF V) : List String → Option (List ℕ)
  | [] => some []
  | n :: ns =>
    match colIdx? df n, resolveIdx df ns with
    | some i, some is => some (i :: is)
    | _, _ => none

/-- Models `df.dropna (subset := names)`; a name absent from the frame
raises `KeyError`. -/
def dropnaSubsetE {V : Type} (df : DF V) (names : List String) :
    Except String (DF V) :=
  match resolveIdx df names with
  | some is => .ok (dropnaIdx df is)
  | none => .error "KeyError: dropna subset"

/-- Insert a row into a key-sorted row list. -/
def insertByKey {α : Type} (k : α → ℕ) (r : α) : List α → List α
  | [] => [r]
  | x :: xs => if k r ≤ k x then r :: x :: xs else x :: insertByKey k r xs

/-- Comparison sort of rows by a numeric key (models
`df.sort_values ("Month")`; the claims only depend on the output being
key-sorted, which every comparison sort guarantees). -/
def sortByKey {α : Type} (k : α → ℕ) : List α → List α
  | [] => []
  | x :: xs => insertByKey k x (sortByKey k xs)

/-- Sort key of a month cell. -/
def cellMonthKey {V : Type} : Cell V → ℕ
  | .date d => mdateKey d
  | _ => 0

/-- Models `df.sort_values ("Month")`. -/
def sortByMonthE {V : Type} (df : DF V) : Except String (DF V) :=
  match colIdx? df "Month" with
  | some i =>
    .ok { df with rows := sortByKey (fun r => cellMonthKey (r.getD i Cell.na)) df.rows }
  | none => .error "KeyError: Month"

/-- Is the row entirely missing across the frame's columns? -/
def rowAllNa {V : Type} (ncols : ℕ) (r : List (Cell V)) : Bool :=
  (List.range ncols).all (fun i => (r.getD i Cell.na).isNa)

/-- Models `df.dropna (how := "all")`. -/
def dropAllNa {V : Type} (df : DF V) : DF V :=
  { df with rows := df.rows.filter (fun r => !rowAllNa df.headers.length r) }

/-- Re-express a row of a frame with headers `src` under the combined
header list `tgt`, filling absent columns with `na` (the column alignment
performed by `pd.concat`). -/
def reindexRow {V : Type} (src tgt : List String) (r : List (Cell V)) :
    List (Cell V) :=
  tgt.map (fun h =>
    match src.findIdx? (fun x => x = h) with
    | some i => r.getD i Cell.na
    | none => Cell.na)

/-- Models `pd.concat ([a, b], ignore_index := True)`: columns are the
union (first frame's order first), rows of `a` then rows of `b`. -/
def concatDF {V : Type} (a b : DF V) : DF V :=
  let hs := a.headers ++ b.headers.filter (fun h => !a.headers.contains h)
  { headers := hs
  , rows := a.rows.map (reindexRow a.headers hs) ++ b.rows.map (reindexRow b.headers hs) }

/-- Models `combined.replace ([np.nan, np.inf, -np.inf], None)`: the
rational carrier has no non-finite values and missing cells are already
the explicit marker `na` (rendered as `null`), so this is the identity
here. -/
def replaceNonFinite {V : Type} (df : DF V) : DF V := df

/-! ## The pipeline -/

/-- Step 2's synonym table (applied after header trimming). -/
def renameHeader (h : String) : String :=
  if h = "Months" then "Month"
  else if h = "Cash Inflow" then "Inflow"
  else if h = "Cash Outflow" then "Outflow"
  else if h = "Net Cash Flow" then "Net_Cashflow"
  else h

/-- The uploaded table as delivered by `read_csv` / `read_excel`. -/
structure RawTable (V : Type) where
  headers : List String
  rows : List (List (Cell V))
deriving DecidableEq

/-- Rectangularity of an uploaded table (guaranteed by `read_csv` /
`read_excel`). -/
def RectT {V : Type} (t : RawTable V) : Prop :=
  ∀ r ∈ t.rows, r.length = t.headers.length

/-- Step 2: trim headers, then rename the known synonyms. -/
def normalizeCols {V : Type} (t : RawTable V) : DF V :=
  { headers := t.headers.map (fun c => renameHeader (pyStrip c)), rows := t.rows }

/-- One cell under `pd.to_datetime (·, format, errors := "coerce")`:
strings are parsed with the given format, cells that are already
datetimes pass through unchanged, everything else coerces to missing. -/
def parseCellWith {V : Type} (p : String → Option MDate) : Cell V → Cell V
  | .str s => match p s with | some d => .date d | none => .na
  | .date d => .date d
  | _ => .na

/-- One cell under `pd.to_numeric (·, errors := "coerce")`: numeric values
pass through, everything else coerces to missing. -/
def toNumericCell {V : Type} : Cell V → Cell V
  | .num v => .num v
  | _ => .na

/-- Elementwise column addition with missing-value propagation. -/
def cellAdd {V : Type} (ops : NumOps V) : Cell V → Cell V → Cell V
  | .num a, .num b => .num (ops.add a b)
  | _, _ => .na

/-- Date held by a cell (default for non-date cells, never reached on the
columns this is applied to). -/
def cellToDate {V : Type} : Cell V → MDate
  | .date d => d
  | _ => ⟨0, 1⟩

/-- Numeric value held by a cell (default for non-numeric cells, never
reached on the columns this is applied to). -/
def cellToNum {V : Type} (ops : NumOps V) : Cell V → V
  | .num v => v
  | _ => ops.zero

/-- Models `pd.offsets.MonthBegin 1`: an anchored offset, so it moves any
date — including one already on a month begin — to the first day of the
following month. -/
def monthBegin1 (d : MDate) : MDate := ⟨d.ym + 1, 1⟩

/-- Models `pd.date_range (start, periods, freq := "MS")`: month-begin
stamps, rolling the start forward to a month begin if necessary. -/
def dateRangeMS (start : MDate) (periods : ℕ) : List MDate :=
  (List.range periods).map
    (fun i => ⟨(if start.day = 1 then start.ym else start.ym + 1) + i, 1⟩)

/-- Step 6's future index: 12 month begins starting one `MonthBegin` after
the last historical month. -/
def forecast_index (last_date : MDate) : List MDate :=
  dateRangeMS (monthBegin1 last_date) 12

/-- The external guarantee of `fit.forecast 12`: exactly 12 points. -/
def Fc12 (V : Type) := { l : List V // l.length = 12 }

/-- An external model-fitting capability: from a month-indexed series to
12 forecast points, or a failure. -/
def Oracle (V : Type) := List (MDate × V) → Except String (Fc12 V)

/-- Step 5's `safe_forecast`: try the additive-trend model; on any
failure fall back to simple exponential smoothing.  A fallback failure
propagates (and is caught only by the route's outer handler). -/
def safe_forecast {V : Type} (primary fallback : Oracle V)
    (series : List (MDate × V)) : Except String (Fc12 V) :=
  match primary series with
  | .ok r => .ok r
  | .error _ => fallback series

/-- The month-indexed numeric series
`pd.Series (df[name].values, index := df["Month"])`. -/
def seriesOf {V : Type} (ops : NumOps V) (df : DF V) (name : String) :
    List (MDate × V) :=
  ((getColD df "Month").map cellToDate).zip ((getColD df name).map (cellToNum ops))

/-- Step 6's `forecast_df`: display month labels with the two forecasts
rounded to two decimals, the net forecast computed as their sum, and the
three columns aliased onto the canonical historical names. -/
def forecast_df {V : Type} (ops : NumOps V) (fidx : List MDate)
    (inF outF : Fc12 V) : DF V :=
  let base : DF V :=
    { headers := ["Month", "Inflow_Forecast", "Outflow_Forecast"]
    , rows := (List.range 12).map (fun i =>
        [ Cell.str (fmtBY (fidx.getD i ⟨0, 1⟩))
        , Cell.num (ops.round2 (inF.val.getD i ops.zero))
        , Cell.num (ops.round2 (outF.val.getD i ops.zero)) ]) }
  let withNet := setCol base "Net_Cashflow_Forecast"
    (List.zipWith (cellAdd ops) (getColD base "Inflow_Forecast")
      (getColD base "Outflow_Forecast"))
  let a := setCol withNet "Inflow" (getColD withNet "Inflow_Forecast")
  let b := setCol a "Outflow" (getColD a "Outflow_Forecast")
  setCol b "Net_Cashflow" (getColD b "Net_Cashflow_Forecast")

/-- Step 7's display copy: historical months re-rendered as `%b-%Y`
strings (`NaT` would render missing, but no `NaT` survives the drop). -/
def displayDFE {V : Type} (df : DF V) : Except String (DF V) :=
  mapColE df "Month" (fun c =>
    match c with
    | .date d => Cell.str (fmtBY d)
    | _ => Cell.na)

/-- Step 4: coerce the two cashflow columns, derive
`Net_Cashflow = Inflow + Outflow` elementwise, and drop the rows missing
either coerced cashflow. -/
def numericStep {V : Type} (ops : NumOps V) (df : DF V) :
    Except String (DF V) :=
  mapColE df "Inflow" toNumericCell >>= fun df5 =>
  mapColE df5 "Outflow" toNumericCell >>= fun df6 =>
  dropnaSubsetE
    (setCol df6 "Net_Cashflow"
      (List.zipWith (cellAdd ops) (getColD df6 "Inflow") (getColD df6 "Outflow")))
    ["Inflow", "Outflow"]

/-- Step 3's conditional fallback: when every parsed month is missing,
re-run `to_datetime` over the (already overwritten) month column under the
day-month-year format, exactly as the source does. -/
def retryMonthE {V : Type} (df1 : DF V) (mcol : List (Cell V)) :
    Except String (DF V) :=
  if mcol.all Cell.isNa then
    mapColE df1 "Month" (parseCellWith parseDDMonYY)
  else
    pure df1

/-- Steps 2–4: header normalization, month parsing with the all-or-nothing
fallback retry (note the retry runs on the already-coerced column, exactly
as the source does), the month drop-and-sort, then the numeric step. -/
def readAndClean {V : Type} (ops : NumOps V) (t : RawTable V) :
    Except String (DF V) :=
  getColE (normalizeCols t) "Month" >>= fun _ =>
  mapColE (normalizeCols t) "Month" (parseCellWith parseYYMon) >>= fun df1 =>
  getColE df1 "Month" >>= fun mcol =>
  retryMonthE df1 mcol >>= fun df2 =>
  dropnaSubsetE df2 ["Month"] >>= fun df3 =>
  sortByMonthE df3 >>= fun df4 =>
  numericStep ops df4

/-- The structured route response: success with `rows_received` and the
combined record set, or an error object with its HTTP status. -/
inductive Resp (V : Type) where
  | ok (rows_received : ℕ) (records : DF V)
  | err (code : ℕ) (msg : String)
deriving DecidableEq

/-- An uploaded file: its name (drives the format dispatch) and its parsed
tabular content. -/
structure UploadFile (V : Type) where
  filename : String
  table : RawTable V
deriving DecidableEq

/-- A request to the `/forecast` route. -/
structure Request (V : Type) where
  file : Option (UploadFile V)
deriving DecidableEq

/-- `df["Month"].iloc[-1]`: the last historical month after the sort. -/
def lastMonth {V : Type} (df : DF V) : MDate :=
  cellToDate ((getColD df "Month").getLastD Cell.na)

/-- Steps 2–8 under the route's `try`: clean, gate on three valid rows,
forecast both series, and assemble the combined response.  An `error`
value is an uncaught Python exception. -/
def runPipeline {V : Type} (ops : NumOps V) (primary fallback : Oracle V)
    (t : RawTable V) : Except String (Resp V) :=
  readAndClean ops t >>= fun df =>
  if df.rows.length < 3 then
    pure (Resp.err 400 "Not enough valid rows for forecasting")
  else
    safe_forecast primary fallback (seriesOf ops df "Inflow") >>= fun inF =>
    safe_forecast primary fallback (seriesOf ops df "Outflow") >>= fun outF =>
    displayDFE df >>= fun disp =>
    pure (Resp.ok df.rows.length (dropAllNa (replaceNonFinite (concatDF disp
      (forecast_df ops (forecast_index (lastMonth df)) inF outF)))))

/-- Extension dispatch of Step 1 (`read_csv` for `.csv`, `read_excel` for
`.xlsx` / `.xls`; both deliver the request's table in this model). -/
def csvOrExcel (name : String) : Bool :=
  strEndsWith name ".csv" || strEndsWith name ".xlsx" || strEndsWith name ".xls"

/-- The `/forecast` route handler.  A missing file — or a file whose
storage is falsy because its filename is empty — yields the no-file error;
an unrecognized extension yields the unsupported-format error; any
uncaught exception becomes a 500 with the message passed through. -/
def forecast {V : Type} (ops : NumOps V) (primary fallback : Oracle V)
    (req : Request V) : Resp V :=
  match req.file with
  | none => Resp.err 400 "No file uploaded"
  | some fl =>
    if fl.filename = "" then Resp.err 400 "No file uploaded"
    else if csvOrExcel fl.filename then
      match runPipeline ops primary fallback fl.table with
      | .ok r => r
      | .error e => Resp.err 500 e
    else Resp.err 400 "Unsupported file format"

/-- Replace the values (not the header) of the first column that
normalizes to `Net_Cashflow` — i.e. a supplied "Net Cash Flow" or
already-canonical "Net_Cashflow" column — by `g` of themselves. -/
def replaceNetVals {V : Type} (g : Cell V → Cell V) (t : RawTable V) :
    RawTable V :=
  match t.headers.findIdx? (fun h => renameHeader (pyStrip h) = "Net_Cashflow") with
  | some ni =>
    { t with rows := t.rows.map (fun r => r.set ni (g (r.getD ni Cell.na))) }
  | none => t

/-- Lift `replaceNetVals` to a whole request. -/
def reqReplaceNet {V : Type} (g : Cell V → Cell V) (req : Request V) :
    Request V :=
  { file := req.file.map (fun fl => { fl with table := replaceNetVals g fl.table }) }

/-! ## Concrete tables and oracles used to evaluate the pipeline -/

/-- An oracle that always succeeds with a constant 12-point forecast. -/
def okOracleZ : Oracle ℤ := fun _ => .ok ⟨List.replicate 12 0, rfl⟩

/-- An oracle that always fails with the given exception message. -/
def errOracleZ (msg : String) : Oracle ℤ := fun _ => .error msg

/-- Three-row integer table in the primary month format (months out of
order to exercise the sort). -/
def tblOk : RawTable ℤ :=
  { headers := ["Months", "Cash Inflow", "Cash Outflow"]
  , rows := [[.str "24-Feb", .num 1100, .num (-450)],
             [.str "24-Jan", .num 1000, .num (-400)],
             [.str "24-Mar", .num 1050, .num (-420)]] }

/-- The cleaned frame `tblOk` turns into (sorted, net derived). -/
def tblOkClean : DF ℤ :=
  { headers := ["Month", "Inflow", "Outflow", "Net_Cashflow"]
  , rows := [[.date ⟨24288, 1⟩, .num 1000, .num (-400), .num 600],
             [.date ⟨24289, 1⟩, .num 1100, .num (-450), .num 650],
             [.date ⟨24290, 1⟩, .num 1050, .num (-420), .num 630]] }

/-- Two-row integer table (falls below the three-row gate). -/
def tblTwo : RawTable ℤ :=
  { headers := ["Months", "Cash Inflow", "Cash Outflow"]
  , rows := [[.str "24-Jan", .num 1000, .num (-400)],
             [.str "24-Feb", .num 1100, .num (-450)]] }

/-- The cleaned frame `tblTwo` turns into. -/
def tblTwoClean : DF ℤ :=
  { headers := ["Month", "Inflow", "Outflow", "Net_Cashflow"]
  , rows := [[.date ⟨24288, 1⟩, .num 1000, .num (-400), .num 600],
             [.date ⟨24289, 1⟩, .num 1100, .num (-450), .num 650]] }

/-- Table whose months all fail the primary format `YY-Mon` but would all
parse under the fallback format `DD-Mon-YY`. -/
def tblFallbackMonths : RawTable ℤ :=
  { headers := ["Months", "Cash Inflow", "Cash Outflow"]
  , rows := [[.str "01-Jan-24", .num 1000, .num (-400)],
             [.str "01-Feb-24", .num 1100, .num (-450)],
             [.str "01-Mar-24", .num 1050, .num (-420)]] }

/-- An already-canonical frame with one uncoercible inflow cell, feeding
the numeric step directly. -/
def numIn : DF ℤ :=
  { headers := ["Month", "Inflow", "Outflow"]
  , rows := [[.date ⟨24288, 1⟩, .num 10, .num (-4)],
             [.date ⟨24289, 1⟩, .str "oops", .num (-5)],
             [.date ⟨24290, 1⟩, .num 12, .num (-6)]] }

/-- A constant all-zero 12-point forecast over the rationals. -/
def q12 : Fc12 ℚ := ⟨List.replicate 12 0, rfl⟩

/-! ## Generic list helpers -/

lemma getD_set_ne {α : Type} {l : List α} {i j : ℕ} (h : i ≠ j) (a d : α) :
    (l.set i a).getD j d = l.getD j d := by
  simp [List.getD_eq_getElem?_getD, List.getElem?_set_ne h]

lemma getD_set_lt {α : Type} {l : List α} {i : ℕ} (h : i < l.length) (a d : α) :
    (l.set i a).getD i d = a := by
  simp [List.getD_eq_getElem?_getD, List.getElem?_set_self h]

lemma getD_set_ge {α : Type} {l : List α} {i : ℕ} (h : l.length ≤ i) (a d : α) :
    (l.set i a).getD i d = d := by
  simp [List.getD_eq_getElem?_getD, List.getElem?_set, Nat.not_lt.mpr h]

lemma getD_append_lt {α : Type} {l l' : List α} {i : ℕ} (h : i < l.length) (d : α) :
    (l ++ l').getD i d = l.getD i d := by
  simp [List.getD_eq_getElem?_getD, List.getElem?_append_left h]

lemma zipWith_congr_left {α β γ : Type} {f g : α → β → γ} :
    ∀ {l : List α} {l' : List β}, (∀ a ∈ l, ∀ b, f a b = g a b) →
      List.zipWith f l l' = List.zipWith g l l'
  | [], _, _ => by simp
  | _ :: _, [], _ => by simp
  | a :: l, b :: l', h => by
    simp only [List.zipWith_cons_cons]
    exact congrArg₂ (· :: ·) (h a (by simp) b)
      (zipWith_congr_left (fun x hx => h x (by simp [hx])))

lemma zipWith_fst {α β : Type} (f : α → α) :
    ∀ (l : List α) (l' : List β), l.length ≤ l'.length →
      List.zipWith (fun a _ => f a) l l' = l.map f
  | [], _, _ => by simp
  | a :: l, [], h => by simp at h
  | a :: l, b :: l', h => by
    simp only [List.zipWith_cons_cons, List.map_cons]
    exact congrArg (f a :: ·) (zipWith_fst f l l' (by simpa using h))

lemma ok_of_bind {ε α β : Type} {e : Except ε α} {f : α → Except ε β} {b : β}
    (h : (e >>= f) = Except.ok b) : ∃ a, e = Except.ok a ∧ f a = Except.ok b := by
  cases e with
  | error msg => simp [Bind.bind, Except.bind] at h
  | ok a => exact ⟨a, rfl, by simpa [Bind.bind, Except.bind] using h⟩

lemma findIdx?_some_facts {α : Type} {p : α → Bool} :
    ∀ {l : List α} {i : ℕ}, l.findIdx? p = some i →
      i < l.length ∧ ∀ d, p (l.getD i d) = true := by
  intro l
  induction l with
  | nil => intro i h; simp [List.findIdx?] at h
  | cons x xs ih =>
    intro i h
    rw [List.findIdx?_cons] at h
    by_cases hx : p x
    · simp [hx] at h
      subst h
      exact ⟨by simp, fun d => by simpa using hx⟩
    · simp only [hx, if_neg, Bool.false_eq_true, if_false] at h
      rw [List.findIdx?_succ] at h
      simp only [Option.map_eq_some'] at h
      obtain ⟨j, hj, rfl⟩ := h
      obtain ⟨hlt, hp⟩ := ih hj
      exact ⟨by simpa using hlt, fun d => by simpa using hp d⟩

lemma findIdx?_append_some {α : Type} {p : α → Bool} {l l' : List α} {i : ℕ}
    (h : l.findIdx? p = some i) : (l ++ l').findIdx? p = some i := by
  rw [List.findIdx?_append, h]
  rfl

/-! ## Sorting lemmas -/

lemma insertByKey_perm {α : Type} (k : α → ℕ) (r : α) :
    ∀ l : List α, (insertByKey k r l).Perm (r :: l)
  | [] => List.Perm.refl _
  | x :: xs => by
    simp only [insertByKey]
    split
    · exact List.Perm.refl _
    · exact ((insertByKey_perm k r xs).cons x).trans (List.Perm.swap r x xs)

lemma sortByKey_perm {α : Type} (k : α → ℕ) :
    ∀ l : List α, (sortByKey k l).Perm l
  | [] => List.Perm.refl _
  | x :: xs =>
    (insertByKey_perm k x (sortByKey k xs)).trans ((sortByKey_perm k xs).cons x)

lemma insertByKey_pairwise {α : Type} {k : α → ℕ} {r : α} :
    ∀ {l : List α}, l.Pairwise (fun a b => k a ≤ k b) →
      (insertByKey k r l).Pairwise (fun a b => k a ≤ k b) := by
  intro l
  induction l with
  | nil => intro _; simp [insertByKey]
  | cons x xs ih =>
    intro hl
    rw [List.pairwise_cons] at hl
    simp only [insertByKey]
    split
    · rename_i hle
      rw [List.pairwise_cons]
      refine ⟨?_, List.pairwise_cons.mpr hl⟩
      intro y hy
      rcases List.mem_cons.mp hy with rfl | hy
      · exact hle
      · exact le_trans hle (hl.1 y hy)
    · rename_i hgt
      rw [List.pairwise_cons]
      refine ⟨?_, ih hl.2⟩
      intro y hy
      have hy' : y ∈ r :: xs := (insertByKey_perm k r xs).mem_iff.mp hy
      rcases List.mem_cons.mp hy' with rfl | h
      · exact le_of_not_le hgt
      · exact hl.1 y h

lemma sortByKey_pairwise {α : Type} (k : α → ℕ) :
    ∀ l : List α, (sortByKey k l).Pairwise (fun a b => k a ≤ k b)
  | [] => by simp [sortByKey]
  | x :: xs => insertByKey_pairwise (sortByKey_pairwise k xs)

lemma insertByKey_map {α : Type} {k : α → ℕ} {g : α → α}
    (hk : ∀ a, k (g a) = k a) (r : α) :
    ∀ l : List α, insertByKey k (g r) (l.map g) = (insertByKey k r l).map g
  | [] => by simp [insertByKey]
  | x :: xs => by
    simp only [List.map_cons, insertByKey, hk]
    split
    · simp
    · simp [insertByKey_map hk r xs]

lemma sortByKey_map {α : Type} {k : α → ℕ} {g : α → α}
    (hk : ∀ a, k (g a) = k a) :
    ∀ l : List α, sortByKey k (l.map g) = (sortByKey k l).map g
  | [] => by simp [sortByKey]
  | x :: xs => by
    simp only [List.map_cons, sortByKey, sortByKey_map hk xs]
    exact insertByKey_map hk x (sortByKey k xs)

/-! ## Cell and column lemmas -/

lemma isNa_iff {V : Type} {c : Cell V} : c.isNa = true ↔ c = Cell.na := by
  cases c <;> simp [Cell.isNa]

lemma isNa_false_iff {V : Type} {c : Cell V} : c.isNa = false ↔ c ≠ Cell.na := by
  cases c <;> simp [Cell.isNa]

lemma parseCellWith_shape {V : Type} (p : String → Option MDate) (c : Cell V) :
    parseCellWith p c = Cell.na ∨ ∃ d, parseCellWith p c = Cell.date d := by
  cases c with
  | str s =>
    cases hp : p s with
    | none => left; simp [parseCellWith, hp]
    | some d => right; exact ⟨d, by simp [parseCellWith, hp]⟩
  | date d => right; exact ⟨d, rfl⟩
  | num v => left; rfl
  | na => left; rfl

lemma toNumericCell_shape {V : Type} (c : Cell V) :
    toNumericCell c = Cell.na ∨ ∃ q, (toNumericCell c : Cell V) = Cell.num q := by
  cases c with
  | num v => right; exact ⟨v, rfl⟩
  | str s => left; rfl
  | date d => left; rfl
  | na => left; rfl

lemma colOf_map_set_ne {V : Type} {i j : ℕ} (hij : i ≠ j)
    (f : List (Cell V) → Cell V) (rows : List (List (Cell V))) :
    colOf (rows.map (fun r => r.set i (f r))) j = colOf rows j := by
  unfold colOf
  rw [List.map_map]
  exact List.map_congr_left (fun r _ => getD_set_ne hij _ _)

lemma colOf_map_getD {V : Type} (g : Cell V → Cell V) (i : ℕ)
    (rows : List (List (Cell V))) :
    ∀ c ∈ colOf (rows.map (fun r => r.set i (g (r.getD i Cell.na)))) i,
      c = Cell.na ∨ ∃ r ∈ rows, c = g (r.getD i Cell.na) := by
  intro c hc
  unfold colOf at hc
  rw [List.map_map] at hc
  obtain ⟨r, hr, hcr⟩ := List.mem_map.mp hc
  simp only [Function.comp] at hcr
  by_cases hlt : i < r.length
  · right; exact ⟨r, hr, by rw [← hcr, getD_set_lt hlt]⟩
  · left; rw [← hcr, getD_set_ge (Nat.le_of_not_lt hlt)]

/-! ## Step inversion lemmas -/

lemma getColE_ok_inv {V : Type} {df : DF V} {name : String} {col : List (Cell V)}
    (h : getColE df name = .ok col) :
    ∃ i, colIdx? df name = some i ∧ col = getIdxCol df i := by
  unfold getColE at h
  cases hc : colIdx? df name with
  | none => rw [hc] at h; exact absurd h (by simp)
  | some i =>
    rw [hc] at h
    exact ⟨i, rfl, (Except.ok.inj h).symm⟩

lemma mapColE_ok_inv {V : Type} {df df' : DF V} {name : String}
    {g : Cell V → Cell V} (h : mapColE df name g = .ok df') :
    ∃ i, colIdx? df name = some i ∧
      df' = { headers := df.headers
            , rows := df.rows.map (fun r => r.set i (g (r.getD i Cell.na))) } := by
  unfold mapColE at h
  cases hc : colIdx? df name with
  | none => rw [hc] at h; exact absurd h (by simp)
  | some i =>
    rw [hc] at h
    exact ⟨i, rfl, (Except.ok.inj h).symm⟩

lemma sortByMonthE_ok_inv {V : Type} {df df' : DF V}
    (h : sortByMonthE df = .ok df') :
    ∃ i, colIdx? df "Month" = some i ∧
      df' = { headers := df.headers
            , rows := sortByKey (fun r => cellMonthKey (r.getD i Cell.na)) df.rows } := by
  unfold sortByMonthE at h
  cases hc : colIdx? df "Month" with
  | none => rw [hc] at h; exact absurd h (by simp)
  | some i =>
    rw [hc] at h
    exact ⟨i, rfl, (Except.ok.inj h).symm⟩

lemma dropnaSubsetE_one_inv {V : Type} {df df' : DF V} {nm : String}
    (h : dropnaSubsetE df [nm] = .ok df') :
    ∃ i, colIdx? df nm = some i ∧ df' = dropnaIdx df [i] := by
  unfold dropnaSubsetE at h
  simp only [resolveIdx] at h
  cases hc : colIdx? df nm with
  | none => rw [hc] at h; exact absurd h (by simp)
  | some i =>
    rw [hc] at h
    exact ⟨i, rfl, (Except.ok.inj h).symm⟩

lemma dropnaSubsetE_two_inv {V : Type} {df df' : DF V} {n1 n2 : String}
    (h : dropnaSubsetE df [n1, n2] = .ok df') :
    ∃ i j, colIdx? df n1 = some i ∧ colIdx? df n2 = some j ∧
      df' = dropnaIdx df [i, j] := by
  unfold dropnaSubsetE at h
  simp only [resolveIdx] at h
  cases hc1 : colIdx? df n1 with
  | none => rw [hc1] at h; exact absurd h (by simp)
  | some i =>
    rw [hc1] at h
    cases hc2 : colIdx? df n2 with
    | none => rw [hc2] at h; exact absurd h (by simp)
    | some j =>
      rw [hc2] at h
      exact ⟨i, j, rfl, rfl, (Except.ok.inj h).symm⟩

lemma zipWith_two_maps {α β γ δ : Type} (f : β → γ → δ) (g : α → β) (h : α → γ)
    (l : List α) :
    List.zipWith f (l.map g) (l.map h) = l.map (fun a => f (g a) (h a)) := by
  rw [List.zipWith_map, List.zipWith_same]

lemma zipWith_with_map {α β γ : Type} (f : α → β → γ) (φ : α → β) (l : List α) :
    List.zipWith f l (l.map φ) = l.map (fun a => f a (φ a)) := by
  rw [List.zipWith_map_right, List.zipWith_same]

lemma getD_append_len {α : Type} (l : List α) (x d : α) :
    (l ++ [x]).getD l.length d = x := by
  simp [List.getD_eq_getElem?_getD, List.getElem?_append_right (Nat.le_refl _)]

lemma getD_set_self_or {α : Type} (l : List α) (i : ℕ) (f : α → α) (d : α)
    (hd : f d = d) :
    (l.set i (f (l.getD i d))).getD i d = f (l.getD i d) := by
  by_cases hlt : i < l.length
  · exact getD_set_lt hlt _ _
  · rw [getD_set_ge (Nat.le_of_not_lt hlt),
      List.getD_eq_default _ _ (Nat.le_of_not_lt hlt), hd]

lemma colIdx?_getD {V : Type} {df : DF V} {name : String} {i : ℕ}
    (h : colIdx? df name = some i) :
    i < df.headers.length ∧ df.headers.getD i "" = name := by
  obtain ⟨hlt, hp⟩ := findIdx?_some_facts h
  exact ⟨hlt, of_decide_eq_true (hp "")⟩

lemma colIdx?_ne {V : Type} {df : DF V} {n1 n2 : String} {i j : ℕ}
    (h1 : colIdx? df n1 = some i) (h2 : colIdx? df n2 = some j)
    (hn : n1 ≠ n2) : i ≠ j := by
  intro hij
  apply hn
  rw [← (colIdx?_getD h1).2, ← (colIdx?_getD h2).2, hij]

lemma findIdx?_append_none {α : Type} {p : α → Bool} {l l' : List α}
    (h : l.findIdx? p = none) :
    (l ++ l').findIdx? p = (l'.findIdx? p).map (· + l.length) := by
  rw [List.findIdx?_append, h]
  rfl

/-- Shape of the net-column assignment followed by the cashflow dropna,
over an arbitrary frame with known `Inflow` / `Outflow` positions. -/
lemma net_and_drop_shape {V : Type} {ops : NumOps V} {hs : List String}
    {rows : List (List (Cell V))} {ii oi : ℕ} {dfout : DF V}
    (hii : hs.findIdx? (fun h => h = "Inflow") = some ii)
    (hoi : hs.findIdx? (fun h => h = "Outflow") = some oi)
    (h : dropnaSubsetE (setCol ⟨hs, rows⟩ "Net_Cashflow"
        (List.zipWith (cellAdd ops) (getColD ⟨hs, rows⟩ "Inflow")
          (getColD ⟨hs, rows⟩ "Outflow"))) ["Inflow", "Outflow"] = .ok dfout) :
    ∃ ni addNet,
      ((addNet = false ∧ hs.findIdx? (fun h => h = "Net_Cashflow") = some ni ∧
          dfout.headers = hs) ∨
       (addNet = true ∧ hs.findIdx? (fun h => h = "Net_Cashflow") = none ∧
          ni = hs.length ∧ dfout.headers = hs ++ ["Net_Cashflow"])) ∧
      dfout.rows = (rows.map (fun r =>
          (fun nv => if addNet then r ++ [nv] else r.set ni nv)
            (cellAdd ops (r.getD ii Cell.na) (r.getD oi Cell.na)))).filter
        (fun r => [ii, oi].all (fun i => !(r.getD i Cell.na).isNa)) := by
  have hgi : getColD (⟨hs, rows⟩ : DF V) "Inflow" =
      rows.map (fun r => r.getD ii Cell.na) := by
    simp [getColD, colIdx?, hii, getIdxCol]
  have hgo : getColD (⟨hs, rows⟩ : DF V) "Outflow" =
      rows.map (fun r => r.getD oi Cell.na) := by
    simp [getColD, colIdx?, hoi, getIdxCol]
  rw [hgi, hgo, zipWith_two_maps] at h
  cases hni : hs.findIdx? (fun h => h = "Net_Cashflow") with
  | some ni =>
    have hset : setCol (⟨hs, rows⟩ : DF V) "Net_Cashflow"
        (rows.map (fun r => cellAdd ops (r.getD ii Cell.na) (r.getD oi Cell.na))) =
        ⟨hs, rows.map (fun r =>
          r.set ni (cellAdd ops (r.getD ii Cell.na) (r.getD oi Cell.na)))⟩ := by
      simp only [setCol, colIdx?, hni]
      exact congrArg (DF.mk hs) (zipWith_with_map _ _ rows)
    rw [hset] at h
    obtain ⟨ia, ib, hia, hib, hdrop⟩ := dropnaSubsetE_two_inv h
    have hia' : ia = ii := by
      have : hs.findIdx? (fun h => h = "Inflow") = some ia := hia
      rw [hii] at this; exact (Option.some.inj this).symm
    have hib' : ib = oi := by
      have : hs.findIdx? (fun h => h = "Outflow") = some ib := hib
      rw [hoi] at this; exact (Option.some.inj this).symm
    subst hia' hib'
    refine ⟨ni, false, Or.inl ⟨rfl, rfl, by rw [hdrop]; rfl⟩, ?_⟩
    rw [hdrop]
    rfl
  | none =>
    have hset : setCol (⟨hs, rows⟩ : DF V) "Net_Cashflow"
        (rows.map (fun r => cellAdd ops (r.getD ii Cell.na) (r.getD oi Cell.na))) =
        ⟨hs ++ ["Net_Cashflow"], rows.map (fun r =>
          r ++ [cellAdd ops (r.getD ii Cell.na) (r.getD oi Cell.na)])⟩ := by
      simp only [setCol, colIdx?, hni]
      exact congrArg (DF.mk (hs ++ ["Net_Cashflow"])) (zipWith_with_map _ _ rows)
    rw [hset] at h
    obtain ⟨ia, ib, hia, hib, hdrop⟩ := dropnaSubsetE_two_inv h
    have hia' : ia = ii := by
      have h1 : (hs ++ ["Net_Cashflow"]).findIdx? (fun h => h = "Inflow") = some ia := hia
      rw [findIdx?_append_some hii] at h1
      exact (Option.some.inj h1).symm
    have hib' : ib = oi := by
      have h1 : (hs ++ ["Net_Cashflow"]).findIdx? (fun h => h = "Outflow") = some ib := hib
      rw [findIdx?_append_some hoi] at h1
      exact (Option.some.inj h1).symm
    subst hia' hib'
    refine ⟨hs.length, true, Or.inr ⟨rfl, rfl, rfl, by rw [hdrop]; rfl⟩, ?_⟩
    rw [hdrop]
    rfl

lemma netstep_getD_ne {V : Type} {r2 : List (Cell V)} {ni j : ℕ} (hj : j < r2.length)
    (hne : ni ≠ j) (nv : Cell V) (addNet : Bool) :
    (if addNet then r2 ++ [nv] else r2.set ni nv).getD j Cell.na = r2.getD j Cell.na := by
  cases addNet
  · exact getD_set_ne hne _ _
  · exact getD_append_lt hj _

lemma netstep_getD_ni {V : Type} {r2 : List (Cell V)} {ni : ℕ} (nv : Cell V)
    {addNet : Bool} (h : if addNet then ni = r2.length else ni < r2.length) :
    (if addNet then r2 ++ [nv] else r2.set ni nv).getD ni Cell.na = nv := by
  cases addNet
  · simp only [if_false, Bool.false_eq_true]
    simp only [if_false, Bool.false_eq_true] at h
    exact getD_set_lt h _ _
  · simp only [if_true]
    simp only [if_true] at h
    subst h
    exact getD_append_len _ _ _

lemma netstep_length {V : Type} (r2 : List (Cell V)) (nv : Cell V) (addNet : Bool)
    (ni : ℕ) :
    (if addNet then r2 ++ [nv] else r2.set ni nv).length =
      if addNet then r2.length + 1 else r2.length := by
  cases addNet <;> simp

lemma coerce2_getD_ii {V : Type} {r0 : List (Cell V)} {ii oi : ℕ} (hio : ii ≠ oi)
    (hlt : ii < r0.length) :
    ((r0.set ii (toNumericCell (r0.getD ii Cell.na))).set oi
      (toNumericCell ((r0.set ii (toNumericCell (r0.getD ii Cell.na))).getD oi
        Cell.na))).getD ii Cell.na = toNumericCell (r0.getD ii Cell.na) := by
  rw [getD_set_ne (fun h => hio h.symm), getD_set_lt hlt]

lemma coerce2_getD_oi {V : Type} {r0 : List (Cell V)} {ii oi : ℕ} (hio : ii ≠ oi) :
    ((r0.set ii (toNumericCell (r0.getD ii Cell.na))).set oi
      (toNumericCell ((r0.set ii (toNumericCell (r0.getD ii Cell.na))).getD oi
        Cell.na))).getD oi Cell.na = toNumericCell (r0.getD oi Cell.na) := by
  rw [getD_set_self_or _ _ _ _ rfl, getD_set_ne hio]

lemma coerce2_getD_ne {V : Type} {r0 : List (Cell V)} {ii oi j : ℕ} (h1 : ii ≠ j)
    (h2 : oi ≠ j) :
    ((r0.set ii (toNumericCell (r0.getD ii Cell.na))).set oi
      (toNumericCell ((r0.set ii (toNumericCell (r0.getD ii Cell.na))).getD oi
        Cell.na))).getD j Cell.na = r0.getD j Cell.na := by
  rw [getD_set_ne h2, getD_set_ne h1]

/-- Normal form of a successful `numericStep`: the two coercions and the
net assignment become one per-row transform, and the drop becomes a
row filter. -/
lemma numericStep_ok_shape {V : Type} {ops : NumOps V} {dfin dfout : DF V}
    (h : numericStep ops dfin = .ok dfout) :
    ∃ ii oi ni addNet,
      colIdx? dfin "Inflow" = some ii ∧
      colIdx? dfin "Outflow" = some oi ∧
      ((addNet = false ∧ colIdx? dfin "Net_Cashflow" = some ni ∧
          dfout.headers = dfin.headers) ∨
       (addNet = true ∧ colIdx? dfin "Net_Cashflow" = none ∧
          ni = dfin.headers.length ∧
          dfout.headers = dfin.headers ++ ["Net_Cashflow"])) ∧
      dfout.rows = (dfin.rows.map (fun r =>
          (fun r2 => (fun nv => if addNet then r2 ++ [nv] else r2.set ni nv)
              (cellAdd ops (r2.getD ii Cell.na) (r2.getD oi Cell.na)))
            ((r.set ii (toNumericCell (r.getD ii Cell.na))).set oi
              (toNumericCell ((r.set ii (toNumericCell (r.getD ii Cell.na))).getD oi
                Cell.na))))).filter
        (fun r => [ii, oi].all (fun i => !(r.getD i Cell.na).isNa)) := by
  unfold numericStep at h
  obtain ⟨df5, h5, h⟩ := ok_of_bind h
  obtain ⟨df6, h6, h⟩ := ok_of_bind h
  obtain ⟨ii, hii, hdf5⟩ := mapColE_ok_inv h5
  obtain ⟨oi, hoi5, hdf6⟩ := mapColE_ok_inv h6
  subst hdf5
  have hoi : colIdx? dfin "Outflow" = some oi := hoi5
  subst hdf6
  obtain ⟨ni, addNet, hcase, hrows⟩ := net_and_drop_shape hii hoi h
  refine ⟨ii, oi, ni, addNet, hii, hoi, hcase, ?_⟩
  rw [hrows]
  rw [List.map_map, List.map_map]
  rfl

/-- The facts a successful `numericStep` guarantees on a rectangular
frame: positions of the three cashflow columns, numeric-ness of the two
coerced columns, the per-row net identity, the exact retention count, the
untouched month column, and rectangularity of the result. -/
lemma numericStep_facts {V : Type} {ops : NumOps V} {dfin dfout : DF V}
    (hrect : Rect dfin) (h : numericStep ops dfin = .ok dfout) :
    ∃ ii oi ni,
      colIdx? dfin "Inflow" = some ii ∧
      colIdx? dfin "Outflow" = some oi ∧
      colIdx? dfout "Inflow" = some ii ∧
      colIdx? dfout "Outflow" = some oi ∧
      colIdx? dfout "Net_Cashflow" = some ni ∧
      (∀ c ∈ getIdxCol dfout ii, ∃ q, c = Cell.num q) ∧
      (∀ c ∈ getIdxCol dfout oi, ∃ q, c = Cell.num q) ∧
      (∀ r ∈ dfout.rows, r.getD ni Cell.na =
        cellAdd ops (r.getD ii Cell.na) (r.getD oi Cell.na)) ∧
      dfout.rows.length = (dfin.rows.filter (fun r =>
        !(toNumericCell (r.getD ii Cell.na)).isNa &&
        !(toNumericCell (r.getD oi Cell.na)).isNa)).length ∧
      (∀ mi, colIdx? dfin "Month" = some mi →
        colIdx? dfout "Month" = some mi ∧
        (getIdxCol dfout mi).Sublist (getIdxCol dfin mi)) ∧
      Rect dfout := by
  obtain ⟨ii, oi, ni, addNet, hii, hoi, hcase, hrows⟩ := numericStep_ok_shape h
  set F : List (Cell V) → List (Cell V) := fun r =>
      (fun r2 => (fun nv => if addNet then r2 ++ [nv] else r2.set ni nv)
          (cellAdd ops (r2.getD ii Cell.na) (r2.getD oi Cell.na)))
        ((r.set ii (toNumericCell (r.getD ii Cell.na))).set oi
          (toNumericCell ((r.set ii (toNumericCell (r.getD ii Cell.na))).getD oi
            Cell.na))) with hF
  set p : List (Cell V) → Bool :=
      fun r => [ii, oi].all (fun i => !(r.getD i Cell.na).isNa) with hp
  have hio : ii ≠ oi := colIdx?_ne hii hoi (by decide)
  have hbii : ii < dfin.headers.length := (colIdx?_getD hii).1
  have hboi : oi < dfin.headers.length := (colIdx?_getD hoi).1
  have hni_ii : ni ≠ ii := by
    rcases hcase with ⟨_, hn, _⟩ | ⟨_, _, hlen, _⟩
    · exact colIdx?_ne hn hii (by decide)
    · exact fun he => absurd (he ▸ hlen ▸ hbii) (lt_irrefl _)
  have hni_oi : ni ≠ oi := by
    rcases hcase with ⟨_, hn, _⟩ | ⟨_, _, hlen, _⟩
    · exact colIdx?_ne hn hoi (by decide)
    · exact fun he => absurd (he ▸ hlen ▸ hboi) (lt_irrefl _)
  have hni_pos : if addNet then ni = dfin.headers.length else ni < dfin.headers.length := by
    rcases hcase with ⟨ha, hn, _⟩ | ⟨ha, _, hlen, _⟩
    · subst ha; exact (colIdx?_getD hn).1
    · subst ha; exact hlen
  have hFlen : ∀ r0 ∈ dfin.rows, (F r0).length =
      if addNet then dfin.headers.length + 1 else dfin.headers.length := by
    intro r0 hr0
    simp only [hF]
    rw [netstep_length]
    simp [hrect r0 hr0]
  have hFii : ∀ r0 ∈ dfin.rows,
      (F r0).getD ii Cell.na = toNumericCell (r0.getD ii Cell.na) := by
    intro r0 hr0
    have hl : ii < r0.length := by rw [hrect r0 hr0]; exact hbii
    simp only [hF]
    rw [netstep_getD_ne (by simpa using hl) hni_ii, coerce2_getD_ii hio hl]
  have hFoi : ∀ r0 ∈ dfin.rows,
      (F r0).getD oi Cell.na = toNumericCell (r0.getD oi Cell.na) := by
    intro r0 hr0
    have hl : oi < r0.length := by rw [hrect r0 hr0]; exact hboi
    simp only [hF]
    rw [netstep_getD_ne (by simpa using hl) hni_oi, coerce2_getD_oi hio]
  have hFni : ∀ r0 ∈ dfin.rows,
      (F r0).getD ni Cell.na =
        cellAdd ops (toNumericCell (r0.getD ii Cell.na))
          (toNumericCell (r0.getD oi Cell.na)) := by
    intro r0 hr0
    have hl : ii < r0.length := by rw [hrect r0 hr0]; exact hbii
    simp only [hF]
    rw [netstep_getD_ni _ (by simpa [List.length_set, hrect r0 hr0] using hni_pos),
      coerce2_getD_ii hio hl, coerce2_getD_oi hio]
  have hhd_inflow : colIdx? dfout "Inflow" = some ii := by
    rcases hcase with ⟨_, _, hhd⟩ | ⟨_, _, _, hhd⟩
    · unfold colIdx?; rw [hhd]; exact hii
    · unfold colIdx?; rw [hhd]; exact findIdx?_append_some hii
  have hhd_outflow : colIdx? dfout "Outflow" = some oi := by
    rcases hcase with ⟨_, _, hhd⟩ | ⟨_, _, _, hhd⟩
    · unfold colIdx?; rw [hhd]; exact hoi
    · unfold colIdx?; rw [hhd]; exact findIdx?_append_some hoi
  have hhd_net : colIdx? dfout "Net_Cashflow" = some ni := by
    rcases hcase with ⟨_, hn, hhd⟩ | ⟨_, hn, hlen, hhd⟩
    · unfold colIdx?; rw [hhd]; exact hn
    · unfold colIdx?
      rw [hhd, findIdx?_append_none hn, hlen]
      have h1 : List.findIdx? (fun h => h = "Net_Cashflow") ["Net_Cashflow"] =
          some 0 := by decide
      rw [h1]
      simp
  rw [List.filter_map] at hrows
  refine ⟨ii, oi, ni, hii, hoi, hhd_inflow, hhd_outflow, hhd_net, ?_, ?_, ?_, ?_, ?_, ?_⟩
  · -- the inflow column of the output holds numeric cells only
    intro c hc
    unfold getIdxCol at hc
    rw [hrows, List.map_map] at hc
    obtain ⟨r0, hr0, hcr⟩ := List.mem_map.mp hc
    have hr0m : r0 ∈ dfin.rows := (List.mem_filter.mp hr0).1
    have hpred := (List.mem_filter.mp hr0).2
    simp only [Function.comp] at hcr hpred
    rw [hFii r0 hr0m] at hcr
    simp only [hp, List.all_cons, List.all_nil, Bool.and_true, Bool.and_eq_true] at hpred
    rw [hFii r0 hr0m] at hpred
    rcases toNumericCell_shape (r0.getD ii Cell.na) with hna | ⟨q, hq⟩
    · rw [hna] at hpred; simp [Cell.isNa] at hpred
    · exact ⟨q, by rw [← hcr, hq]⟩
  · -- the outflow column of the output holds numeric cells only
    intro c hc
    unfold getIdxCol at hc
    rw [hrows, List.map_map] at hc
    obtain ⟨r0, hr0, hcr⟩ := List.mem_map.mp hc
    have hr0m : r0 ∈ dfin.rows := (List.mem_filter.mp hr0).1
    have hpred := (List.mem_filter.mp hr0).2
    simp only [Function.comp] at hcr hpred
    rw [hFoi r0 hr0m] at hcr
    simp only [hp, List.all_cons, List.all_nil, Bool.and_true, Bool.and_eq_true] at hpred
    rw [hFoi r0 hr0m] at hpred
    rcases toNumericCell_shape (r0.getD oi Cell.na) with hna | ⟨q, hq⟩
    · rw [hna] at hpred; simp [Cell.isNa] at hpred
    · exact ⟨q, by rw [← hcr, hq]⟩
  · -- per-row net identity
    intro r hr
    rw [hrows] at hr
    obtain ⟨r0, hr0, hcr⟩ := List.mem_map.mp hr
    have hr0m : r0 ∈ dfin.rows := (List.mem_filter.mp hr0).1
    rw [← hcr, hFni r0 hr0m, hFii r0 hr0m, hFoi r0 hr0m]
  · -- exact retention count
    rw [hrows, List.length_map]
    apply congrArg List.length
    apply List.filter_congr
    intro r0 hr0
    simp only [Function.comp, hp, List.all_cons, List.all_nil, Bool.and_true]
    rw [hFii r0 hr0, hFoi r0 hr0]
  · -- the month column is untouched (up to the row drop)
    intro mi hmi
    have hmi_ii : mi ≠ ii := colIdx?_ne hmi hii (by decide)
    have hmi_oi : mi ≠ oi := colIdx?_ne hmi hoi (by decide)
    have hbmi : mi < dfin.headers.length := (colIdx?_getD hmi).1
    have hmi_ni : ni ≠ mi := by
      rcases hcase with ⟨_, hn, _⟩ | ⟨_, _, hlen, _⟩
      · exact colIdx?_ne hn hmi (by decide)
      · exact fun he => absurd (he ▸ hlen ▸ hbmi) (lt_irrefl _)
    have hFmi : ∀ r0 ∈ dfin.rows, (F r0).getD mi Cell.na = r0.getD mi Cell.na := by
      intro r0 hr0
      have hl : mi < r0.length := by rw [hrect r0 hr0]; exact hbmi
      simp only [hF]
      rw [netstep_getD_ne (by simpa using hl) hmi_ni,
        coerce2_getD_ne hmi_ii.symm hmi_oi.symm]
    constructor
    · rcases hcase with ⟨_, _, hhd⟩ | ⟨_, _, _, hhd⟩
      · unfold colIdx?; rw [hhd]; exact hmi
      · unfold colIdx?; rw [hhd]; exact findIdx?_append_some hmi
    · unfold getIdxCol
      rw [hrows, List.map_map]
      have heq : (dfin.rows.filter (p ∘ F)).map ((fun r => r.getD mi Cell.na) ∘ F) =
          (dfin.rows.filter (p ∘ F)).map (fun r => r.getD mi Cell.na) :=
        List.map_congr_left (fun r0 hr0 => hFmi r0 (List.mem_filter.mp hr0).1)
      rw [heq]
      exact (List.filter_sublist _).map _
  · -- rectangularity of the output
    intro r hr
    rw [hrows] at hr
    obtain ⟨r0, hr0, hcr⟩ := List.mem_map.mp hr
    have hr0m : r0 ∈ dfin.rows := (List.mem_filter.mp hr0).1
    rw [← hcr, hFlen r0 hr0m]
    rcases hcase with ⟨ha, _, hhd⟩ | ⟨ha, _, _, hhd⟩
    · subst ha; rw [hhd]; rfl
    · subst ha; rw [hhd]; simp

lemma month_cell_shape {V : Type} {g : Cell V → Cell V}
    (hg : ∀ c, g c = Cell.na ∨ ∃ d, g c = Cell.date d)
    {rows : List (List (Cell V))} (i : ℕ) :
    ∀ r ∈ rows.map (fun r0 => r0.set i (g (r0.getD i Cell.na))),
      r.getD i Cell.na = Cell.na ∨ ∃ d, r.getD i Cell.na = Cell.date d := by
  intro r hr
  obtain ⟨r0, hr0, rfl⟩ := List.mem_map.mp hr
  by_cases hlt : i < r0.length
  · rw [getD_set_lt hlt]; exact hg _
  · rw [getD_set_ge (Nat.le_of_not_lt hlt)]; left; rfl

/-- The facts a successful `readAndClean` guarantees on a rectangular
upload: positions of the four canonical columns, every retained month
cell a parsed date, every retained cashflow cell numeric, the per-row net
identity, chronologically sorted months, and rectangularity. -/
lemma readAndClean_ok_inv {V : Type} {ops : NumOps V} {t : RawTable V} {df : DF V}
    (hrect : RectT t) (h : readAndClean ops t = .ok df) :
    ∃ mi ii oi ni,
      colIdx? df "Month" = some mi ∧
      colIdx? df "Inflow" = some ii ∧
      colIdx? df "Outflow" = some oi ∧
      colIdx? df "Net_Cashflow" = some ni ∧
      (∀ c ∈ getIdxCol df mi, ∃ d, c = Cell.date d) ∧
      (∀ c ∈ getIdxCol df ii, ∃ q, c = Cell.num q) ∧
      (∀ c ∈ getIdxCol df oi, ∃ q, c = Cell.num q) ∧
      (∀ r ∈ df.rows, r.getD ni Cell.na =
        cellAdd ops (r.getD ii Cell.na) (r.getD oi Cell.na)) ∧
      ((getIdxCol df mi).map cellMonthKey).Pairwise (· ≤ ·) ∧
      Rect df := by
  unfold readAndClean at h
  obtain ⟨_, hA, h⟩ := ok_of_bind h
  obtain ⟨df1, h1, h⟩ := ok_of_bind h
  obtain ⟨mcol, hm, h⟩ := ok_of_bind h
  obtain ⟨df2, h2, h⟩ := ok_of_bind h
  obtain ⟨df3, h3, h⟩ := ok_of_bind h
  obtain ⟨df4, h4, h⟩ := ok_of_bind h
  obtain ⟨mi, hmi0, hdf1⟩ := mapColE_ok_inv h1
  have hrect1 : Rect df1 := by
    rw [hdf1]
    intro r hr
    obtain ⟨r0, hr0, rfl⟩ := List.mem_map.mp hr
    simp only [normalizeCols, List.length_set, List.length_map]
    exact hrect r0 hr0
  have hshape1 : ∀ r ∈ df1.rows,
      r.getD mi Cell.na = Cell.na ∨ ∃ d, r.getD mi Cell.na = Cell.date d := by
    rw [hdf1]
    exact month_cell_shape (fun c => parseCellWith_shape parseYYMon c) mi
  have hhd1 : df1.headers = (normalizeCols t).headers := by rw [hdf1]
  -- the fallback retry (if taken) preserves headers, the month-cell shape,
  -- and rectangularity
  have hdf2 : df2.headers = (normalizeCols t).headers ∧
      (∀ r ∈ df2.rows,
        r.getD mi Cell.na = Cell.na ∨ ∃ d, r.getD mi Cell.na = Cell.date d) ∧
      Rect df2 := by
    by_cases hcond : mcol.all Cell.isNa
    · unfold retryMonthE at h2
      rw [if_pos hcond] at h2
      obtain ⟨mi2, hmi2, hdf2e⟩ := mapColE_ok_inv h2
      have hmi2e : mi2 = mi := by
        have h5 : colIdx? df1 "Month" = some mi := by
          unfold colIdx?; rw [hhd1]; exact hmi0
        rw [h5] at hmi2
        exact (Option.some.inj hmi2).symm
      rw [hmi2e] at hdf2e
      refine ⟨by rw [hdf2e]; exact hhd1, ?_, ?_⟩
      · rw [hdf2e]
        exact month_cell_shape (fun c => parseCellWith_shape parseDDMonYY c) mi
      · rw [hdf2e]
        intro r hr
        obtain ⟨r0, hr0, rfl⟩ := List.mem_map.mp hr
        simp only [List.length_set]
        exact hrect1 r0 hr0
    · unfold retryMonthE at h2
      rw [if_neg hcond] at h2
      have : df1 = df2 := Except.ok.inj h2
      subst this
      exact ⟨hhd1, hshape1, hrect1⟩
  obtain ⟨hhd2, hshape2, hrect2⟩ := hdf2
  -- dropping unparsed months
  obtain ⟨mi3, hmi3, hdf3⟩ := dropnaSubsetE_one_inv h3
  have hmi3e : mi3 = mi := by
    have h5 : colIdx? df2 "Month" = some mi := by
      unfold colIdx?; rw [hhd2]; exact hmi0
    rw [h5] at hmi3
    exact (Option.some.inj hmi3).symm
  rw [hmi3e] at hdf3
  have hhd3 : df3.headers = (normalizeCols t).headers := by
    rw [hdf3]; exact hhd2
  have hdate3 : ∀ r ∈ df3.rows, ∃ d, r.getD mi Cell.na = Cell.date d := by
    intro r hr
    rw [hdf3] at hr
    have hr2 := List.mem_filter.mp hr
    rcases hshape2 r hr2.1 with hna | hd
    · exfalso
      have := hr2.2
      simp only [List.all_cons, List.all_nil, Bool.and_true] at this
      rw [hna] at this
      simp [Cell.isNa] at this
    · exact hd
  have hrect3 : Rect df3 := by
    intro r hr
    rw [hdf3] at hr
    have hr2 := List.mem_filter.mp hr
    rw [hdf3]
    exact hrect2 r hr2.1
  -- sorting by month
  obtain ⟨mi4, hmi4, hdf4⟩ := sortByMonthE_ok_inv h4
  have hmi4e : mi4 = mi := by
    have h5 : colIdx? df3 "Month" = some mi := by
      unfold colIdx?; rw [hhd3]; exact hmi0
    rw [h5] at hmi4
    exact (Option.some.inj hmi4).symm
  rw [hmi4e] at hdf4
  have hperm4 : df4.rows.Perm df3.rows := by
    rw [hdf4]
    exact sortByKey_perm _ _
  have hhd4 : df4.headers = (normalizeCols t).headers := by
    rw [hdf4]; exact hhd3
  have hdate4 : ∀ r ∈ df4.rows, ∃ d, r.getD mi Cell.na = Cell.date d := by
    intro r hr
    exact hdate3 r (hperm4.mem_iff.mp hr)
  have hrect4 : Rect df4 := by
    intro r hr
    rw [hdf4]
    exact hrect3 r (hperm4.mem_iff.mp hr)
  have hsorted4 : (df4.rows.map
      (fun r => cellMonthKey (r.getD mi Cell.na))).Pairwise (· ≤ ·) := by
    rw [hdf4]
    exact List.pairwise_map.mpr (sortByKey_pairwise _ _)
  -- the numeric step
  obtain ⟨ii, oi, ni, hii4, hoi4, hiiO, hoiO, hniO, hnumI, hnumO, hnet, _hcount,
    hmonth, hrectO⟩ := numericStep_facts hrect4 h
  have hmi4' : colIdx? df4 "Month" = some mi := by
    unfold colIdx?; rw [hhd4]; exact hmi0
  obtain ⟨hmiO, hsub⟩ := hmonth mi hmi4'
  refine ⟨mi, ii, oi, ni, hmiO, hiiO, hoiO, hniO, ?_, hnumI, hnumO, hnet, ?_, hrectO⟩
  · intro c hc
    have hc4 : c ∈ getIdxCol df4 mi := hsub.subset hc
    obtain ⟨r, hr, rfl⟩ := List.mem_map.mp hc4
    exact hdate4 r hr
  · have hsubk : ((getIdxCol df mi).map cellMonthKey).Sublist
        ((getIdxCol df4 mi).map cellMonthKey) := hsub.map _
    refine List.Pairwise.sublist hsubk ?_
    unfold getIdxCol
    rw [List.map_map]
    exact hsorted4


/-! ## Route-level inversion and assembly lemmas -/

lemma forecast_ok_inv {V : Type} {ops : NumOps V} {p f : Oracle V}
    {req : Request V} {n : ℕ} {out : DF V}
    (h : forecast ops p f req = .ok n out) :
    ∃ fl df inF outF disp,
      req.file = some fl ∧
      readAndClean ops fl.table = .ok df ∧
      ¬ df.rows.length < 3 ∧
      safe_forecast p f (seriesOf ops df "Inflow") = .ok inF ∧
      safe_forecast p f (seriesOf ops df "Outflow") = .ok outF ∧
      displayDFE df = .ok disp ∧
      n = df.rows.length ∧
      out = dropAllNa (replaceNonFinite (concatDF disp
        (forecast_df ops (forecast_index (lastMonth df)) inF outF))) := by
  cases hfl : req.file with
  | none =>
    simp only [forecast, hfl] at h
    exact absurd h (by simp)
  | some fl =>
    simp only [forecast, hfl] at h
    by_cases hemp : fl.filename = ""
    · rw [if_pos hemp] at h; exact absurd h (by simp)
    · rw [if_neg hemp] at h
      by_cases hext : csvOrExcel fl.filename
      · rw [if_pos hext] at h
        cases hrp : runPipeline ops p f fl.table with
        | error e => rw [hrp] at h; exact absurd h (by simp)
        | ok r =>
          rw [hrp] at h
          have hr : r = Resp.ok n out := h
          subst hr
          unfold runPipeline at hrp
          obtain ⟨df, hclean, hrp⟩ := ok_of_bind hrp
          by_cases hlen : df.rows.length < 3
          · rw [if_pos hlen] at hrp
            exact absurd (Except.ok.inj hrp) (by simp)
          · rw [if_neg hlen] at hrp
            obtain ⟨inF, hinF, hrp⟩ := ok_of_bind hrp
            obtain ⟨outF, houtF, hrp⟩ := ok_of_bind hrp
            obtain ⟨disp, hdisp, hrp⟩ := ok_of_bind hrp
            have h2 := Except.ok.inj hrp
            injection h2 with ha hb
            exact ⟨fl, df, inF, outF, disp, rfl, hclean, hlen, hinF, houtF,
              hdisp, ha.symm, hb.symm⟩
      · rw [if_neg hext] at h
        exact absurd h (by simp)

/-- Normal form of Step 6's forecast frame. -/
lemma forecast_df_eq {V : Type} (ops : NumOps V) (fidx : List MDate)
    (inF outF : Fc12 V) :
    forecast_df ops fidx inF outF =
      { headers := ["Month", "Inflow_Forecast", "Outflow_Forecast",
          "Net_Cashflow_Forecast", "Inflow", "Outflow", "Net_Cashflow"]
      , rows := (List.range 12).map (fun i =>
          [ Cell.str (fmtBY (fidx.getD i ⟨0, 1⟩))
          , Cell.num (ops.round2 (inF.val.getD i ops.zero))
          , Cell.num (ops.round2 (outF.val.getD i ops.zero))
          , Cell.num (ops.add (ops.round2 (inF.val.getD i ops.zero))
              (ops.round2 (outF.val.getD i ops.zero)))
          , Cell.num (ops.round2 (inF.val.getD i ops.zero))
          , Cell.num (ops.round2 (outF.val.getD i ops.zero))
          , Cell.num (ops.add (ops.round2 (inF.val.getD i ops.zero))
              (ops.round2 (outF.val.getD i ops.zero))) ]) } := rfl

/-- The horizon index in closed form: monthly stamps starting right after
the last historical month. -/
lemma forecast_index_eq (last : MDate) :
    forecast_index last =
      (List.range 12).map (fun i => (⟨last.ym + 1 + i, 1⟩ : MDate)) := rfl

lemma concatDF_rows_length {V : Type} (a b : DF V) :
    (concatDF a b).rows.length = a.rows.length + b.rows.length := by
  simp [concatDF]

lemma dropAllNa_eq_self {V : Type} {df : DF V}
    (h : ∀ r ∈ df.rows, rowAllNa df.headers.length r = false) :
    dropAllNa df = df := by
  have he : df.rows.filter (fun r => !rowAllNa df.headers.length r) = df.rows :=
    List.filter_eq_self.mpr (fun r hr => by rw [h r hr]; rfl)
  unfold dropAllNa
  rw [he]

lemma rowAllNa_false_of {V : Type} {ncols j : ℕ} {r : List (Cell V)}
    (hj : j < ncols) (hc : (r.getD j Cell.na).isNa = false) :
    rowAllNa ncols r = false := by
  rw [Bool.eq_false_iff]
  intro hall
  unfold rowAllNa at hall
  rw [List.all_eq_true] at hall
  have := hall j (List.mem_range.mpr hj)
  rw [hc] at this
  exact absurd this (by simp)

lemma reindexRow_getD {V : Type} {src tgt : List String} {name : String}
    {j i : ℕ} (hj : tgt.findIdx? (fun h => h = name) = some j)
    (hi : src.findIdx? (fun h => h = name) = some i) (r : List (Cell V)) :
    (reindexRow src tgt r).getD j Cell.na = r.getD i Cell.na := by
  obtain ⟨hjl, hjp⟩ := findIdx?_some_facts hj
  have hname : tgt.getD j "" = name := of_decide_eq_true (hjp "")
  unfold reindexRow
  rw [List.getD_eq_getElem?_getD, List.getElem?_map]
  have hjget : tgt[j]? = some name := by
    rw [List.getElem?_eq_getElem hjl]
    refine congrArg some ?_
    rwa [List.getD_eq_getElem?_getD, List.getElem?_eq_getElem hjl,
      Option.getD_some] at hname
  rw [hjget, Option.map_some', Option.getD_some, hi]

/-! ## Rounding lemmas -/

lemma ratRound2_int_div (m : ℤ) : ratRound2 ((m : ℚ) / 100) = (m : ℚ) / 100 := by
  unfold ratRound2
  rw [div_mul_cancel₀ _ (by norm_num : (100 : ℚ) ≠ 0), round_intCast]

lemma ratRound2_add_grid (x y : ℚ) :
    ratRound2 (ratRound2 x + ratRound2 y) = ratRound2 x + ratRound2 y := by
  have e1 : ratRound2 x = ((round (x * 100) : ℤ) : ℚ) / 100 := rfl
  have e2 : ratRound2 y = ((round (y * 100) : ℤ) : ℚ) / 100 := rfl
  have h1 : ((round (x * 100) : ℤ) : ℚ) / 100 + ((round (y * 100) : ℤ) : ℚ) / 100 =
      ((round (x * 100) + round (y * 100) : ℤ) : ℚ) / 100 := by
    push_cast
    ring
  rw [e1, e2, h1, ratRound2_int_div]


/-! ## Invariance under net-column replacement -/

lemma bind_ok_apply {ε α β : Type} (a : α) (k : α → Except ε β) :
    (Except.ok a >>= k) = k a := rfl

lemma bind_error_apply {ε α β : Type} (e : ε) (k : α → Except ε β) :
    ((Except.error e : Except ε α) >>= k) = Except.error e := rfl

lemma map_ok_apply {ε α β : Type} (a : α) (f : α → β) :
    (Except.ok a : Except ε α).map f = Except.ok (f a) := rfl

lemma map_error_apply {ε α β : Type} (e : ε) (f : α → β) :
    (Except.error e : Except ε α).map f = Except.error e := rfl

lemma rowSet_comm {V : Type} {i j : ℕ} (hij : i ≠ j)
    (g1 g2 : Cell V → Cell V) (r : List (Cell V)) :
    (r.set i (g1 (r.getD i Cell.na))).set j
        (g2 ((r.set i (g1 (r.getD i Cell.na))).getD j Cell.na)) =
      (r.set j (g2 (r.getD j Cell.na))).set i
        (g1 ((r.set j (g2 (r.getD j Cell.na))).getD i Cell.na)) := by
  rw [getD_set_ne hij, getD_set_ne hij.symm, List.set_comm _ _ _ hij]

/-- Cleaning is blind to the values of the net-cashflow column: replacing
them at upload time does not change the cleaned frame, because the column
is unconditionally overwritten before it is ever read. -/
lemma readAndClean_replaceNet {V : Type} (ops : NumOps V) (g : Cell V → Cell V)
    (t : RawTable V) :
    readAndClean ops (replaceNetVals g t) = readAndClean ops t := by
  unfold replaceNetVals
  cases hfind : t.headers.findIdx? (fun h => renameHeader (pyStrip h) = "Net_Cashflow") with
  | none => rfl
  | some ni =>
    set Fg : List (Cell V) → List (Cell V) :=
      fun r => r.set ni (g (r.getD ni Cell.na)) with hFg
    set T : DF V → DF V := fun d => ⟨d.headers, d.rows.map Fg⟩ with hT
    have hni0 : ∀ df : DF V, df.headers = (normalizeCols t).headers →
        colIdx? df "Net_Cashflow" = some ni := by
      intro df hhd
      unfold colIdx?
      rw [hhd]
      show ((normalizeCols t).headers.findIdx? (fun h => h = "Net_Cashflow")) = some ni
      unfold normalizeCols
      rw [List.findIdx?_map]
      exact hfind
    have hne_of : ∀ (df : DF V) nm (j : ℕ), df.headers = (normalizeCols t).headers →
        ¬ nm = "Net_Cashflow" → colIdx? df nm = some j → j ≠ ni := by
      intro df nm j hhd hnm hj
      exact colIdx?_ne hj (hni0 df hhd) hnm
    have hT_getCol : ∀ (df : DF V) nm, df.headers = (normalizeCols t).headers →
        ¬ nm = "Net_Cashflow" → getColE (T df) nm = getColE df nm := by
      intro df nm hhd hnm
      unfold getColE
      have hci : colIdx? (T df) nm = colIdx? df nm := rfl
      rw [hci]
      cases hj : colIdx? df nm with
      | none => rfl
      | some j =>
        have hjni : j ≠ ni := hne_of df nm j hhd hnm hj
        have hcol : getIdxCol (T df) j = getIdxCol df j := by
          show colOf (df.rows.map Fg) j = colOf df.rows j
          simp only [hFg]
          exact colOf_map_set_ne (fun he => hjni he.symm) _ df.rows
        show Except.ok (getIdxCol (T df) j) = Except.ok (getIdxCol df j)
        rw [hcol]
    have hT_mapCol : ∀ (df : DF V) nm (g' : Cell V → Cell V),
        df.headers = (normalizeCols t).headers → ¬ nm = "Net_Cashflow" →
        mapColE (T df) nm g' = (mapColE df nm g').map T := by
      intro df nm g' hhd hnm
      unfold mapColE
      have hci : colIdx? (T df) nm = colIdx? df nm := rfl
      rw [hci]
      cases hj : colIdx? df nm with
      | none => rfl
      | some j =>
        have hjni : j ≠ ni := hne_of df nm j hhd hnm hj
        have hrows : (T df).rows.map (fun r => r.set j (g' (r.getD j Cell.na))) =
            (df.rows.map (fun r => r.set j (g' (r.getD j Cell.na)))).map Fg := by
          show (df.rows.map Fg).map _ = _
          rw [List.map_map, List.map_map]
          refine List.map_congr_left (fun r _ => ?_)
          show (Fg r).set j (g' ((Fg r).getD j Cell.na)) =
            Fg (r.set j (g' (r.getD j Cell.na)))
          simp only [hFg]
          exact rowSet_comm hjni.symm g g' r
        show Except.ok (⟨(T df).headers,
            (T df).rows.map (fun r => r.set j (g' (r.getD j Cell.na)))⟩ : DF V) =
          Except.map T (Except.ok (⟨df.headers,
            df.rows.map (fun r => r.set j (g' (r.getD j Cell.na)))⟩ : DF V))
        rw [map_ok_apply]
        refine congrArg Except.ok ?_
        show (⟨(T df).headers, (T df).rows.map _⟩ : DF V) =
          T ⟨df.headers, df.rows.map _⟩
        simp only [hT]
        exact congrArg (DF.mk df.headers) hrows
    have hT_retry : ∀ (df : DF V) (mcol : List (Cell V)),
        df.headers = (normalizeCols t).headers →
        retryMonthE (T df) mcol = (retryMonthE df mcol).map T := by
      intro df mcol hhd
      unfold retryMonthE
      by_cases hcnd : mcol.all Cell.isNa
      · rw [if_pos hcnd, if_pos hcnd]
        exact hT_mapCol df "Month" _ hhd (by decide)
      · rw [if_neg hcnd, if_neg hcnd]
        rfl
    have hT_dropna : ∀ (df : DF V) (mi : ℕ), colIdx? df "Month" = some mi →
        df.headers = (normalizeCols t).headers →
        dropnaSubsetE (T df) ["Month"] = (dropnaSubsetE df ["Month"]).map T := by
      intro df mi hmi hhd
      have hmini : mi ≠ ni := hne_of df "Month" mi hhd (by decide) hmi
      unfold dropnaSubsetE
      have hres : resolveIdx (T df) ["Month"] = resolveIdx df ["Month"] := rfl
      rw [hres]
      have hres2 : resolveIdx df ["Month"] = some [mi] := by
        unfold resolveIdx
        rw [hmi]
        rfl
      rw [hres2, map_ok_apply]
      refine congrArg Except.ok ?_
      show dropnaIdx (T df) [mi] = T (dropnaIdx df [mi])
      unfold dropnaIdx
      simp only [hT]
      refine congrArg (DF.mk df.headers) ?_
      show (df.rows.map Fg).filter _ = (df.rows.filter _).map Fg
      rw [List.filter_map]
      refine congrArg (List.map Fg) ?_
      refine List.filter_congr (fun r _ => ?_)
      show [mi].all (fun i => !((Fg r).getD i Cell.na).isNa) =
        [mi].all (fun i => !(r.getD i Cell.na).isNa)
      simp only [List.all_cons, List.all_nil, Bool.and_true]
      simp only [hFg]
      rw [getD_set_ne hmini.symm]
    have hT_sort : ∀ (df : DF V) (mi : ℕ), colIdx? df "Month" = some mi →
        df.headers = (normalizeCols t).headers →
        sortByMonthE (T df) = (sortByMonthE df).map T := by
      intro df mi hmi hhd
      have hmini : mi ≠ ni := hne_of df "Month" mi hhd (by decide) hmi
      unfold sortByMonthE
      have hci : colIdx? (T df) "Month" = colIdx? df "Month" := rfl
      rw [hci, hmi, map_ok_apply]
      refine congrArg Except.ok ?_
      show (⟨(T df).headers, sortByKey _ (T df).rows⟩ : DF V) =
        T ⟨df.headers, sortByKey _ df.rows⟩
      simp only [hT]
      refine congrArg (DF.mk df.headers) ?_
      show sortByKey (fun r => cellMonthKey (r.getD mi Cell.na)) (df.rows.map Fg) =
        (sortByKey (fun r => cellMonthKey (r.getD mi Cell.na)) df.rows).map Fg
      refine sortByKey_map (fun r => ?_) df.rows
      simp only [hFg]
      rw [getD_set_ne hmini.symm]
    have hT_getColD : ∀ (df : DF V) nm, df.headers = (normalizeCols t).headers →
        ¬ nm = "Net_Cashflow" → getColD (T df) nm = getColD df nm := by
      intro df nm hhd hnm
      unfold getColD
      have hci : colIdx? (T df) nm = colIdx? df nm := rfl
      rw [hci]
      cases hj : colIdx? df nm with
      | none => rfl
      | some j =>
        have hjni : j ≠ ni := hne_of df nm j hhd hnm hj
        show colOf (df.rows.map Fg) j = colOf df.rows j
        simp only [hFg]
        exact colOf_map_set_ne (fun he => hjni he.symm) _ df.rows
    have hT_num : ∀ df : DF V, df.headers = (normalizeCols t).headers →
        numericStep ops (T df) = numericStep ops df := by
      intro df hhd
      unfold numericStep
      cases h5 : mapColE df "Inflow" toNumericCell with
      | error e => rw [hT_mapCol df "Inflow" _ hhd (by decide), h5]; rfl
      | ok df5 =>
        rw [hT_mapCol df "Inflow" _ hhd (by decide), h5, map_ok_apply,
          bind_ok_apply, bind_ok_apply]
        have hhd5 : df5.headers = (normalizeCols t).headers := by
          obtain ⟨i, _, hdf⟩ := mapColE_ok_inv h5
          rw [hdf]
          exact hhd
        cases h6 : mapColE df5 "Outflow" toNumericCell with
        | error e => rw [hT_mapCol df5 "Outflow" _ hhd5 (by decide), h6]; rfl
        | ok df6 =>
          rw [hT_mapCol df5 "Outflow" _ hhd5 (by decide), h6, map_ok_apply,
            bind_ok_apply, bind_ok_apply]
          have hhd6 : df6.headers = (normalizeCols t).headers := by
            obtain ⟨i, _, hdf⟩ := mapColE_ok_inv h6
            rw [hdf]
            exact hhd5
          have hcols : List.zipWith (cellAdd ops) (getColD (T df6) "Inflow")
              (getColD (T df6) "Outflow") =
              List.zipWith (cellAdd ops) (getColD df6 "Inflow")
                (getColD df6 "Outflow") := by
            rw [hT_getColD df6 "Inflow" hhd6 (by decide),
              hT_getColD df6 "Outflow" hhd6 (by decide)]
          rw [hcols]
          have hset : setCol (T df6) "Net_Cashflow"
              (List.zipWith (cellAdd ops) (getColD df6 "Inflow")
                (getColD df6 "Outflow")) =
              setCol df6 "Net_Cashflow"
                (List.zipWith (cellAdd ops) (getColD df6 "Inflow")
                  (getColD df6 "Outflow")) := by
            unfold setCol
            have hci : colIdx? (T df6) "Net_Cashflow" = colIdx? df6 "Net_Cashflow" := rfl
            rw [hci, hni0 df6 hhd6]
            refine congrArg (fun rs => ({ headers := df6.headers, rows := rs } : DF V)) ?_
            show List.zipWith (fun r c => r.set ni c) (df6.rows.map Fg) _ =
              List.zipWith (fun r c => r.set ni c) df6.rows _
            rw [List.zipWith_map_left]
            refine zipWith_congr_left (fun r _ c => ?_)
            show (Fg r).set ni c = r.set ni c
            simp only [hFg]
            exact List.set_set _ _ _ _
          rw [hset]
    show readAndClean ops ⟨t.headers, t.rows.map Fg⟩ = readAndClean ops t
    have hnorm : normalizeCols (⟨t.headers, t.rows.map Fg⟩ : RawTable V) =
        T (normalizeCols t) := rfl
    unfold readAndClean
    rw [hnorm]
    cases h0 : getColE (normalizeCols t) "Month" with
    | error e =>
      rw [hT_getCol (normalizeCols t) "Month" rfl (by decide), h0]
      rfl
    | ok mcol0 =>
      rw [hT_getCol (normalizeCols t) "Month" rfl (by decide), h0,
        bind_ok_apply, bind_ok_apply]
      cases h1 : mapColE (normalizeCols t) "Month" (parseCellWith parseYYMon) with
      | error e =>
        rw [hT_mapCol (normalizeCols t) "Month" _ rfl (by decide), h1]
        rfl
      | ok df1 =>
        rw [hT_mapCol (normalizeCols t) "Month" _ rfl (by decide), h1, map_ok_apply,
          bind_ok_apply, bind_ok_apply]
        have hhd1 : df1.headers = (normalizeCols t).headers := by
          obtain ⟨i, _, hdf⟩ := mapColE_ok_inv h1
          rw [hdf]
        cases h2 : getColE df1 "Month" with
        | error e =>
          rw [hT_getCol df1 "Month" hhd1 (by decide), h2]
          rfl
        | ok mcol =>
          rw [hT_getCol df1 "Month" hhd1 (by decide), h2, bind_ok_apply, bind_ok_apply]
          cases h3 : retryMonthE df1 mcol with
          | error e =>
            rw [hT_retry df1 mcol hhd1, h3]
            rfl
          | ok df2 =>
            rw [hT_retry df1 mcol hhd1, h3, map_ok_apply, bind_ok_apply, bind_ok_apply]
            have hhd2 : df2.headers = (normalizeCols t).headers := by
              unfold retryMonthE at h3
              by_cases hcnd : mcol.all Cell.isNa
              · rw [if_pos hcnd] at h3
                obtain ⟨i, _, hdf⟩ := mapColE_ok_inv h3
                rw [hdf]
                exact hhd1
              · rw [if_neg hcnd] at h3
                rw [← Except.ok.inj h3]
                exact hhd1
            cases hmi2 : colIdx? df2 "Month" with
            | none =>
              have hres : resolveIdx df2 ["Month"] = none := by
                unfold resolveIdx
                rw [hmi2]
              have hresT : resolveIdx (T df2) ["Month"] = none := hres
              unfold dropnaSubsetE
              rw [hresT, hres]
            | some mi =>
              cases h4 : dropnaSubsetE df2 ["Month"] with
              | error e =>
                rw [hT_dropna df2 mi hmi2 hhd2, h4]
                rfl
              | ok df3 =>
                rw [hT_dropna df2 mi hmi2 hhd2, h4, map_ok_apply,
                  bind_ok_apply, bind_ok_apply]
                have hhd3 : df3.headers = (normalizeCols t).headers := by
                  obtain ⟨i, _, hdf⟩ := dropnaSubsetE_one_inv h4
                  rw [hdf]
                  exact hhd2
                have hmi3 : colIdx? df3 "Month" = some mi := by
                  unfold colIdx?
                  rw [hhd3]
                  unfold colIdx? at hmi2
                  rw [hhd2] at hmi2
                  exact hmi2
                cases h5 : sortByMonthE df3 with
                | error e =>
                  rw [hT_sort df3 mi hmi3 hhd3, h5]
                  rfl
                | ok df4 =>
                  rw [hT_sort df3 mi hmi3 hhd3, h5, map_ok_apply,
                    bind_ok_apply, bind_ok_apply]
                  have hhd4 : df4.headers = (normalizeCols t).headers := by
                    obtain ⟨i, _, hdf⟩ := sortByMonthE_ok_inv h5
                    rw [hdf]
                    exact hhd3
                  exact hT_num df4 hhd4


/-! ## Shape of a successful combined response -/

/-- Everything a successful route call guarantees about the combined
record set: it is the displayed history followed by exactly the 12
forecast rows (the all-null drop removes nothing), with month labels
formatted from the sorted historical dates and from the horizon index
respectively. -/
lemma forecast_ok_shape {V : Type} {ops : NumOps V} {p f : Oracle V}
    {req : Request V} {n : ℕ} {out : DF V}
    (hrect : ∀ fl, req.file = some fl → RectT fl.table)
    (h : forecast ops p f req = .ok n out) :
    ∃ fl df mi ii,
      req.file = some fl ∧
      readAndClean ops fl.table = .ok df ∧
      n = df.rows.length ∧
      colIdx? df "Month" = some mi ∧
      out.headers.findIdx? (fun x => x = "Month") = some mi ∧
      out.headers.findIdx? (fun x => x = "Inflow") = some ii ∧
      (∃ hist fc, out.rows = hist ++ fc ∧
        hist.length = df.rows.length ∧
        hist.map (fun r => r.getD mi Cell.na) =
          (getIdxCol df mi).map (fun c => Cell.str (fmtBY (cellToDate c))) ∧
        fc.map (fun r => r.getD mi Cell.na) =
          (List.range 12).map (fun i =>
            Cell.str (fmtBY ((forecast_index (lastMonth df)).getD i ⟨0, 1⟩)))) ∧
      ((getIdxCol df mi).map cellMonthKey).Pairwise (· ≤ ·) ∧
      (∀ c ∈ getIdxCol df mi, ∃ d, c = Cell.date d) := by
  obtain ⟨fl, df, inF, outF, disp, hfl, hclean, hlen3, hin, hout, hdisp, hn, hout_eq⟩ :=
    forecast_ok_inv h
  have hrt : RectT fl.table := hrect fl hfl
  obtain ⟨mi, ii, oi, ni, hmi, hii, hoi, hni, hdates, hnumsI, hnumsO, hnet,
    hsorted, hrectdf⟩ := readAndClean_ok_inv hrt hclean
  obtain ⟨mi2, hmi2, hdispe⟩ := mapColE_ok_inv hdisp
  have hmi2e : mi2 = mi := by
    rw [hmi] at hmi2
    exact (Option.some.inj hmi2).symm
  rw [hmi2e] at hdispe
  have hmi_ii : mi ≠ ii := colIdx?_ne hmi hii (by decide)
  have hdisp_hd : disp.headers = df.headers := by rw [hdispe]
  have hdisp_rows : disp.rows = df.rows.map (fun r => r.set mi
      ((fun c => match c with
        | Cell.date d => Cell.str (fmtBY d)
        | _ => Cell.na) (r.getD mi Cell.na))) := by
    rw [hdispe]
  set fdf := forecast_df ops (forecast_index (lastMonth df)) inF outF with hfdf
  have hfdf_hd : fdf.headers = ["Month", "Inflow_Forecast", "Outflow_Forecast",
      "Net_Cashflow_Forecast", "Inflow", "Outflow", "Net_Cashflow"] := by
    rw [hfdf, forecast_df_eq]
  have hfdf_rows : fdf.rows = (List.range 12).map (fun i =>
      [ Cell.str (fmtBY ((forecast_index (lastMonth df)).getD i ⟨0, 1⟩))
      , Cell.num (ops.round2 (inF.val.getD i ops.zero))
      , Cell.num (ops.round2 (outF.val.getD i ops.zero))
      , Cell.num (ops.add (ops.round2 (inF.val.getD i ops.zero))
          (ops.round2 (outF.val.getD i ops.zero)))
      , Cell.num (ops.round2 (inF.val.getD i ops.zero))
      , Cell.num (ops.round2 (outF.val.getD i ops.zero))
      , Cell.num (ops.add (ops.round2 (inF.val.getD i ops.zero))
          (ops.round2 (outF.val.getD i ops.zero))) ]) := by
    rw [hfdf, forecast_df_eq]
  have hfdf_month : fdf.headers.findIdx? (fun x => x = "Month") = some 0 := by
    rw [hfdf_hd]
    decide
  set hs := disp.headers ++ fdf.headers.filter (fun x => !disp.headers.contains x)
    with hhs
  have hdisp_mi : disp.headers.findIdx? (fun x => x = "Month") = some mi := by
    rw [hdisp_hd]
    exact hmi
  have hdisp_ii : disp.headers.findIdx? (fun x => x = "Inflow") = some ii := by
    rw [hdisp_hd]
    exact hii
  have hhs_mi : hs.findIdx? (fun x => x = "Month") = some mi := by
    rw [hhs]
    exact findIdx?_append_some hdisp_mi
  have hhs_ii : hs.findIdx? (fun x => x = "Inflow") = some ii := by
    rw [hhs]
    exact findIdx?_append_some hdisp_ii
  have hconcat : concatDF disp fdf =
      ⟨hs, disp.rows.map (reindexRow disp.headers hs)
        ++ fdf.rows.map (reindexRow fdf.headers hs)⟩ := by
    rw [hhs]
    rfl
  -- no combined row is entirely missing
  have hkeep : ∀ r ∈ (concatDF disp fdf).rows,
      rowAllNa (concatDF disp fdf).headers.length r = false := by
    intro r hr
    rw [hconcat] at hr
    have hhd_len : (concatDF disp fdf).headers.length = hs.length := by
      rw [hconcat]
    rw [hhd_len]
    rcases List.mem_append.mp hr with hhist | hfc
    · obtain ⟨r0, hr0, rfl⟩ := List.mem_map.mp hhist
      rw [hdisp_rows] at hr0
      obtain ⟨r1, hr1, rfl⟩ := List.mem_map.mp hr0
      refine rowAllNa_false_of (findIdx?_some_facts hhs_ii).1 ?_
      rw [reindexRow_getD hhs_ii hdisp_ii, getD_set_ne (fun he => hmi_ii he)]
      obtain ⟨q, hq⟩ := hnumsI (r1.getD ii Cell.na)
        (List.mem_map.mpr ⟨r1, hr1, rfl⟩)
      rw [hq]
      rfl
    · obtain ⟨r0, hr0, rfl⟩ := List.mem_map.mp hfc
      rw [hfdf_rows] at hr0
      obtain ⟨i, _, rfl⟩ := List.mem_map.mp hr0
      refine rowAllNa_false_of (findIdx?_some_facts hhs_mi).1 ?_
      rw [reindexRow_getD hhs_mi hfdf_month]
      rfl
  have hout_rows : out = concatDF disp fdf := by
    rw [hout_eq]
    exact dropAllNa_eq_self hkeep
  refine ⟨fl, df, mi, ii, hfl, hclean, hn, hmi, ?_, ?_, ?_, hsorted, hdates⟩
  · rw [hout_rows, hconcat]
    exact hhs_mi
  · rw [hout_rows, hconcat]
    exact hhs_ii
  · refine ⟨disp.rows.map (reindexRow disp.headers hs),
      fdf.rows.map (reindexRow fdf.headers hs), ?_, ?_, ?_, ?_⟩
    · rw [hout_rows, hconcat]
    · rw [hdisp_rows]
      simp [List.length_map]
    · -- displayed history months
      rw [List.map_map, hdisp_rows, List.map_map]
      unfold getIdxCol
      rw [List.map_map]
      refine List.map_congr_left (fun r1 hr1 => ?_)
      simp only [Function.comp]
      rw [reindexRow_getD hhs_mi hdisp_mi]
      obtain ⟨d, hd⟩ := hdates (r1.getD mi Cell.na)
        (List.mem_map.mpr ⟨r1, hr1, rfl⟩)
      have hlt : mi < r1.length := by
        rw [hrectdf r1 hr1]
        exact (colIdx?_getD hmi).1
      rw [getD_set_lt hlt, hd]
      rfl
    · -- forecast months
      rw [List.map_map, hfdf_rows, List.map_map]
      refine List.map_congr_left (fun i _ => ?_)
      simp only [Function.comp]
      rw [reindexRow_getD hhs_mi hfdf_month]
      rfl


/-! ## Helper for reading one forecast cell -/

lemma forecast_df_getD {V : Type} (ops : NumOps V) (fidx : List MDate)
    (inF outF : Fc12 V) (nm : String) (k : ℕ)
    (hk : (["Month", "Inflow_Forecast", "Outflow_Forecast",
        "Net_Cashflow_Forecast", "Inflow", "Outflow",
        "Net_Cashflow"] : List String).findIdx? (fun h => h = nm) = some k)
    {i : ℕ} (hi : i < 12) :
    (getColD (forecast_df ops fidx inF outF) nm).getD i Cell.na =
      ([ Cell.str (fmtBY (fidx.getD i ⟨0, 1⟩))
       , Cell.num (ops.round2 (inF.val.getD i ops.zero))
       , Cell.num (ops.round2 (outF.val.getD i ops.zero))
       , Cell.num (ops.add (ops.round2 (inF.val.getD i ops.zero))
           (ops.round2 (outF.val.getD i ops.zero)))
       , Cell.num (ops.round2 (inF.val.getD i ops.zero))
       , Cell.num (ops.round2 (outF.val.getD i ops.zero))
       , Cell.num (ops.add (ops.round2 (inF.val.getD i ops.zero))
           (ops.round2 (outF.val.getD i ops.zero))) ]).getD k Cell.na := by
  rw [forecast_df_eq]
  unfold getColD colIdx? getIdxCol
  dsimp only
  rw [hk]
  dsimp only
  rw [List.map_map, List.getD_eq_getElem?_getD, List.getElem?_map,
    List.getElem?_range hi]
  rfl

/-! ## The claims -/

/-- C1 (code bug): a table whose Month values all fail the primary
`YY-Mon` format yet all parse under the fallback `DD-Mon-YY` format is
claimed to be fully retained via the column-level retry; in the code the
retry runs over the column already coerced to all-missing, so every row
is dropped and the request fails the three-row gate instead. -/
theorem C1_fallback_dead_code_eval :
    (["01-Jan-24", "01-Feb-24", "01-Mar-24"].all
      (fun s => (parseYYMon s).isNone && (parseDDMonYY s).isSome)) = true ∧
    tblFallbackMonths.rows.map (fun r => r.getD 0 Cell.na) =
      ["01-Jan-24", "01-Feb-24", "01-Mar-24"].map Cell.str ∧
    forecast intOps okOracleZ okOracleZ ⟨some ⟨"cashflow.csv", tblFallbackMonths⟩⟩ =
      Resp.err 400 "Not enough valid rows for forecasting" :=
  ⟨by decide, by decide, by decide⟩

/-- C2: in every forecast row the displayed inflow and outflow are the
engine outputs rounded to two decimals — rounding happens only at this
presentation step, the engine outputs themselves being arbitrary — and
the net forecast equals their sum, which is exactly its own two-decimal
rounding, i.e. `net = round (inflow + outflow, 2)`. -/
theorem C2_net_forecast_is_rounded_sum (fidx : List MDate)
    (inF outF : Fc12 ℚ) (i : ℕ) (hi : i < 12) :
    ∃ a b : ℚ,
      (getColD (forecast_df ratOps fidx inF outF) "Inflow_Forecast").getD i
        Cell.na = Cell.num a ∧
      (getColD (forecast_df ratOps fidx inF outF) "Outflow_Forecast").getD i
        Cell.na = Cell.num b ∧
      a = ratRound2 (inF.val.getD i 0) ∧
      b = ratRound2 (outF.val.getD i 0) ∧
      (getColD (forecast_df ratOps fidx inF outF) "Net_Cashflow_Forecast").getD i
        Cell.na = Cell.num (a + b) ∧
      ratRound2 (a + b) = a + b := by
  refine ⟨ratRound2 (inF.val.getD i 0), ratRound2 (outF.val.getD i 0),
    ?_, ?_, rfl, rfl, ?_, ratRound2_add_grid _ _⟩
  · rw [forecast_df_getD ratOps fidx inF outF "Inflow_Forecast" 1 (by decide) hi]
    rfl
  · rw [forecast_df_getD ratOps fidx inF outF "Outflow_Forecast" 2 (by decide) hi]
    rfl
  · rw [forecast_df_getD ratOps fidx inF outF "Net_Cashflow_Forecast" 3 (by decide) hi]
    rfl

/-- C2 witness: the identity instantiated at a concrete forecast frame. -/
theorem C2_witness : 0 < 12 ∧
    ∃ a b : ℚ,
      (getColD (forecast_df ratOps [] q12 q12) "Inflow_Forecast").getD 0
        Cell.na = Cell.num a ∧
      (getColD (forecast_df ratOps [] q12 q12) "Outflow_Forecast").getD 0
        Cell.na = Cell.num b ∧
      a = ratRound2 (q12.val.getD 0 0) ∧
      b = ratRound2 (q12.val.getD 0 0) ∧
      (getColD (forecast_df ratOps [] q12 q12) "Net_Cashflow_Forecast").getD 0
        Cell.na = Cell.num (a + b) ∧
      ratRound2 (a + b) = a + b :=
  ⟨by norm_num, C2_net_forecast_is_rounded_sum [] q12 q12 0 (by norm_num)⟩

/-- C3: whenever cleaning leaves fewer than three rows, the route answers
with the 400 error "Not enough valid rows for forecasting"; the result
does not depend on the forecasting oracles, so no forecasting is
attempted. -/
theorem C3_insufficient_rows_gate {V : Type} (ops : NumOps V)
    (p f : Oracle V) (fl : UploadFile V) (df : DF V)
    (hname : ¬ fl.filename = "") (hext : csvOrExcel fl.filename = true)
    (hclean : readAndClean ops fl.table = .ok df)
    (hlen : df.rows.length < 3) :
    forecast ops p f ⟨some fl⟩ =
      Resp.err 400 "Not enough valid rows for forecasting" := by
  have hrun : runPipeline ops p f fl.table =
      .ok (Resp.err 400 "Not enough valid rows for forecasting") := by
    unfold runPipeline
    rw [hclean, bind_ok_apply, if_pos hlen]
    rfl
  simp [forecast, hname, hext, hrun]

/-- C3 witness: a two-row upload hits the gate. -/
theorem C3_witness :
    readAndClean intOps tblTwo = .ok tblTwoClean ∧
    tblTwoClean.rows.length < 3 ∧
    forecast intOps okOracleZ okOracleZ ⟨some ⟨"upload.csv", tblTwo⟩⟩ =
      Resp.err 400 "Not enough valid rows for forecasting" :=
  ⟨rfl, by decide,
    C3_insufficient_rows_gate intOps okOracleZ okOracleZ
      ⟨"upload.csv", tblTwo⟩ tblTwoClean (by decide) (by decide) rfl
      (by decide)⟩

/-- C4: a request without a file yields the 400 no-file error, and a file
with an unrecognized extension yields the 400 unsupported-format error;
in the latter case the response is the same whatever the file contents,
so nothing is parsed. -/
theorem C4_input_errors_before_parsing {V : Type} (ops : NumOps V)
    (p f : Oracle V) (name : String) (t1 t2 : RawTable V)
    (hname : ¬ name = "") (hext : csvOrExcel name = false) :
    forecast ops p f ⟨none⟩ = Resp.err 400 "No file uploaded" ∧
    forecast ops p f ⟨some ⟨name, t1⟩⟩ =
      Resp.err 400 "Unsupported file format" ∧
    forecast ops p f ⟨some ⟨name, t1⟩⟩ = forecast ops p f ⟨some ⟨name, t2⟩⟩ := by
  have hone : ∀ t : RawTable V, forecast ops p f ⟨some ⟨name, t⟩⟩ =
      Resp.err 400 "Unsupported file format" := by
    intro t
    simp [forecast, hname, hext]
  exact ⟨rfl, hone t1, by rw [hone t1, hone t2]⟩

/-- C4 witness: a `.txt` upload, with two different contents. -/
theorem C4_witness : ¬("data.txt" : String) = "" ∧
    csvOrExcel "data.txt" = false ∧
    (forecast intOps okOracleZ okOracleZ (⟨none⟩ : Request ℤ) =
        Resp.err 400 "No file uploaded" ∧
      forecast intOps okOracleZ okOracleZ ⟨some ⟨"data.txt", tblOk⟩⟩ =
        Resp.err 400 "Unsupported file format" ∧
      forecast intOps okOracleZ okOracleZ ⟨some ⟨"data.txt", tblOk⟩⟩ =
        forecast intOps okOracleZ okOracleZ ⟨some ⟨"data.txt", tblTwo⟩⟩) :=
  ⟨by decide, by decide,
    C4_input_errors_before_parsing intOps okOracleZ okOracleZ "data.txt"
      tblOk tblTwo (by decide) (by decide)⟩

/-- C5: every successful response carries exactly `rows_received + 12`
records, where `rows_received` is the number of historical rows the
cleaning retained. -/
theorem C5_output_length {V : Type} (ops : NumOps V) (p f : Oracle V)
    (req : Request V) (n : ℕ) (out : DF V)
    (hrect : ∀ fl, req.file = some fl → RectT fl.table)
    (h : forecast ops p f req = .ok n out) :
    out.rows.length = n + 12 ∧
    ∃ fl df, req.file = some fl ∧ readAndClean ops fl.table = .ok df ∧
      n = df.rows.length := by
  obtain ⟨fl, df, mi, ii, hfl, hclean, hn, _, _, _,
    ⟨hist, fc, hrows, hhlen, hhm, hfm⟩, _, _⟩ := forecast_ok_shape hrect h
  have hfc12 : fc.length = 12 := by
    have := congrArg List.length hfm
    simpa using this
  constructor
  · rw [hrows, List.length_append, hhlen, hfc12, hn]
  · exact ⟨fl, df, hfl, hclean, hn⟩

/-- C5 witness: a three-row upload produces 15 records. -/
theorem C5_witness :
    (∀ fl, (⟨some ⟨"b.csv", tblOk⟩⟩ : Request ℤ).file = some fl →
      RectT fl.table) ∧
    ∃ n out, forecast intOps okOracleZ okOracleZ ⟨some ⟨"b.csv", tblOk⟩⟩ =
      Resp.ok n out ∧ out.rows.length = n + 12 := by
  have hrect : ∀ fl, (⟨some ⟨"b.csv", tblOk⟩⟩ : Request ℤ).file = some fl →
      RectT fl.table := by
    intro fl hfl
    have he : (⟨"b.csv", tblOk⟩ : UploadFile ℤ) = fl := Option.some.inj hfl
    rw [← he]
    show ∀ r ∈ tblOk.rows, r.length = tblOk.headers.length
    decide
  refine ⟨hrect, 3, _, rfl, ?_⟩
  exact (C5_output_length intOps okOracleZ okOracleZ _ 3 _ hrect rfl).1

/-- C6: the horizon index is 12 strictly consecutive first-of-month
dates, the first exactly one calendar month after the last historical
month. -/
theorem C6_forecast_index_consecutive (last : MDate) :
    forecast_index last =
      [⟨last.ym + 1, 1⟩, ⟨last.ym + 2, 1⟩, ⟨last.ym + 3, 1⟩,
       ⟨last.ym + 4, 1⟩, ⟨last.ym + 5, 1⟩, ⟨last.ym + 6, 1⟩,
       ⟨last.ym + 7, 1⟩, ⟨last.ym + 8, 1⟩, ⟨last.ym + 9, 1⟩,
       ⟨last.ym + 10, 1⟩, ⟨last.ym + 11, 1⟩, ⟨last.ym + 12, 1⟩] := rfl

/-- C7: every successful response is the historical segment followed by
the forecast segment — never a historical row after a forecast row — the
historical months ascending chronologically and the forecast months
strictly consecutive. -/
theorem C7_output_ordering {V : Type} (ops : NumOps V) (p f : Oracle V)
    (req : Request V) (n : ℕ) (out : DF V)
    (hrect : ∀ fl, req.file = some fl → RectT fl.table)
    (h : forecast ops p f req = .ok n out) :
    ∃ hist fc mj, out.rows = hist ++ fc ∧ hist.length = n ∧ fc.length = 12 ∧
      out.headers.findIdx? (fun x => x = "Month") = some mj ∧
      (∃ hdates : List MDate, (hdates.map mdateKey).Pairwise (· ≤ ·) ∧
        hist.map (fun r => r.getD mj Cell.na) =
          hdates.map (fun d => Cell.str (fmtBY d))) ∧
      (∃ lastYm, fc.map (fun r => r.getD mj Cell.na) =
        (List.range 12).map (fun i => Cell.str (fmtBY ⟨lastYm + 1 + i, 1⟩))) := by
  obtain ⟨fl, df, mi, ii, hfl, hclean, hn, hmi, houtmi, _,
    ⟨hist, fc, hrows, hhlen, hhm, hfm⟩, hsorted, hdates⟩ :=
    forecast_ok_shape hrect h
  refine ⟨hist, fc, mi, hrows, by rw [hhlen, hn], ?_, houtmi, ?_, ?_⟩
  · have := congrArg List.length hfm
    simpa using this
  · refine ⟨(getIdxCol df mi).map cellToDate, ?_, ?_⟩
    · rw [List.map_map]
      have hcongr : (getIdxCol df mi).map (mdateKey ∘ cellToDate) =
          (getIdxCol df mi).map cellMonthKey :=
        List.map_congr_left (fun c hc => by
          obtain ⟨d, rfl⟩ := hdates c hc
          rfl)
      rw [hcongr]
      exact hsorted
    · rw [List.map_map]
      exact hhm
  · refine ⟨(lastMonth df).ym, ?_⟩
    rw [hfm]
    refine List.map_congr_left (fun i hi => ?_)
    have hi12 : i < 12 := List.mem_range.mp hi
    rw [forecast_index_eq, List.getD_eq_getElem?_getD, List.getElem?_map,
      List.getElem?_range hi12]
    rfl

/-- C7 witness: the ordering instantiated on a concrete run. -/
theorem C7_witness :
    ∃ n out, forecast intOps okOracleZ okOracleZ ⟨some ⟨"b.csv", tblOk⟩⟩ =
      Resp.ok n out ∧
    ∃ hist fc mj, out.rows = hist ++ fc ∧ hist.length = n ∧ fc.length = 12 ∧
      out.headers.findIdx? (fun x => x = "Month") = some mj ∧
      (∃ hdates : List MDate, (hdates.map mdateKey).Pairwise (· ≤ ·) ∧
        hist.map (fun r => r.getD mj Cell.na) =
          hdates.map (fun d => Cell.str (fmtBY d))) ∧
      (∃ lastYm, fc.map (fun r => r.getD mj Cell.na) =
        (List.range 12).map (fun i => Cell.str (fmtBY ⟨lastYm + 1 + i, 1⟩))) := by
  have hrect : ∀ fl, (⟨some ⟨"b.csv", tblOk⟩⟩ : Request ℤ).file = some fl →
      RectT fl.table := by
    intro fl hfl
    have he : (⟨"b.csv", tblOk⟩ : UploadFile ℤ) = fl := Option.some.inj hfl
    rw [← he]
    show ∀ r ∈ tblOk.rows, r.length = tblOk.headers.length
    decide
  refine ⟨3, _, rfl, ?_⟩
  exact C7_output_ordering intOps okOracleZ okOracleZ _ 3 _ hrect rfl

/-- C8: after the numeric step every retained row has numeric inflow and
outflow with the net column equal to their sum — addition, not
subtraction — and the number of retained rows is exactly the number of
input rows whose inflow and outflow both coerce. -/
theorem C8_net_is_sum_and_drop {V : Type} (ops : NumOps V)
    (dfin dfout : DF V) (hrect : Rect dfin)
    (h : numericStep ops dfin = .ok dfout) :
    ∃ ii oi ni,
      colIdx? dfin "Inflow" = some ii ∧
      colIdx? dfin "Outflow" = some oi ∧
      colIdx? dfout "Inflow" = some ii ∧
      colIdx? dfout "Outflow" = some oi ∧
      colIdx? dfout "Net_Cashflow" = some ni ∧
      (∀ r ∈ dfout.rows, ∃ a b, r.getD ii Cell.na = Cell.num a ∧
        r.getD oi Cell.na = Cell.num b ∧
        r.getD ni Cell.na = Cell.num (ops.add a b)) ∧
      dfout.rows.length = (dfin.rows.filter (fun r =>
        !(toNumericCell (r.getD ii Cell.na)).isNa &&
        !(toNumericCell (r.getD oi Cell.na)).isNa)).length := by
  obtain ⟨ii, oi, ni, h1, h2, h3, h4, h5, hnumI, hnumO, hnet, hcount, _, _⟩ :=
    numericStep_facts hrect h
  refine ⟨ii, oi, ni, h1, h2, h3, h4, h5, ?_, hcount⟩
  intro r hr
  obtain ⟨a, ha⟩ := hnumI (r.getD ii Cell.na) (List.mem_map.mpr ⟨r, hr, rfl⟩)
  obtain ⟨b, hb⟩ := hnumO (r.getD oi Cell.na) (List.mem_map.mpr ⟨r, hr, rfl⟩)
  refine ⟨a, b, ha, hb, ?_⟩
  rw [hnet r hr, ha, hb]
  rfl

/-- C8 witness: one uncoercible inflow cell drops exactly that row. -/
theorem C8_witness : Rect numIn ∧
    ∃ dfout, numericStep intOps numIn = .ok dfout ∧
    ∃ ii oi ni,
      colIdx? numIn "Inflow" = some ii ∧
      colIdx? numIn "Outflow" = some oi ∧
      colIdx? dfout "Inflow" = some ii ∧
      colIdx? dfout "Outflow" = some oi ∧
      colIdx? dfout "Net_Cashflow" = some ni ∧
      (∀ r ∈ dfout.rows, ∃ a b, r.getD ii Cell.na = Cell.num a ∧
        r.getD oi Cell.na = Cell.num b ∧
        r.getD ni Cell.na = Cell.num (intOps.add a b)) ∧
      dfout.rows.length = (numIn.rows.filter (fun r =>
        !(toNumericCell (r.getD ii Cell.na)).isNa &&
        !(toNumericCell (r.getD oi Cell.na)).isNa)).length := by
  have hrect : Rect numIn := by
    show ∀ r ∈ numIn.rows, r.length = numIn.headers.length
    decide
  refine ⟨hrect, _, rfl, ?_⟩
  exact C8_net_is_sum_and_drop intOps numIn _ hrect rfl

/-- C9: for each series, a failing primary fit falls back to the simple
model, and a failure of the fallback itself is not swallowed — it
surfaces as the request-level 500 error carrying the message. -/
theorem C9_fallback_then_surface {V : Type} (ops : NumOps V)
    (p f : Oracle V) :
    (∀ (series : List (MDate × V)) (e : String), p series = .error e →
      safe_forecast p f series = f series) ∧
    (∀ (fl : UploadFile V) (df : DF V) (msg : String),
      ¬ fl.filename = "" → csvOrExcel fl.filename = true →
      readAndClean ops fl.table = .ok df → ¬ df.rows.length < 3 →
      safe_forecast p f (seriesOf ops df "Inflow") = .error msg →
      forecast ops p f ⟨some fl⟩ = Resp.err 500 msg) ∧
    (∀ (fl : UploadFile V) (df : DF V) (inF : Fc12 V) (msg : String),
      ¬ fl.filename = "" → csvOrExcel fl.filename = true →
      readAndClean ops fl.table = .ok df → ¬ df.rows.length < 3 →
      safe_forecast p f (seriesOf ops df "Inflow") = .ok inF →
      safe_forecast p f (seriesOf ops df "Outflow") = .error msg →
      forecast ops p f ⟨some fl⟩ = Resp.err 500 msg) := by
  refine ⟨?_, ?_, ?_⟩
  · intro s e he
    unfold safe_forecast
    rw [he]
  · intro fl df msg hname hext hclean hlen herr
    have hrun : runPipeline ops p f fl.table = .error msg := by
      unfold runPipeline
      rw [hclean, bind_ok_apply, if_neg hlen, herr, bind_error_apply]
    simp [forecast, hname, hext, hrun]
  · intro fl df inF msg hname hext hclean hlen hinok herr
    have hrun : runPipeline ops p f fl.table = .error msg := by
      unfold runPipeline
      rw [hclean, bind_ok_apply, if_neg hlen, hinok, bind_ok_apply, herr,
        bind_error_apply]
    simp [forecast, hname, hext, hrun]

/-- C9 witness: both oracles fail; the fallback message reaches the
client as a 500. -/
theorem C9_witness :
    readAndClean intOps tblOk = .ok tblOkClean ∧
    ¬ tblOkClean.rows.length < 3 ∧
    forecast intOps (errOracleZ "no convergence") (errOracleZ "degenerate data")
      ⟨some ⟨"b.csv", tblOk⟩⟩ = Resp.err 500 "degenerate data" := by
  refine ⟨rfl, by decide, ?_⟩
  exact (C9_fallback_then_surface intOps (errOracleZ "no convergence")
    (errOracleZ "degenerate data")).2.1 ⟨"b.csv", tblOk⟩ tblOkClean
    "degenerate data" (by decide) (by decide) rfl (by decide) rfl

/-- C10: the values of a supplied "Net Cash Flow" (or canonical
"Net_Cashflow") column never influence the response — replacing them
arbitrarily leaves the route's answer unchanged, because the column is
unconditionally overwritten by the computed Inflow + Outflow sum. -/
theorem C10_net_column_overwritten {V : Type} (ops : NumOps V)
    (p f : Oracle V) (g : Cell V → Cell V) (req : Request V) :
    forecast ops p f (reqReplaceNet g req) = forecast ops p f req := by
  obtain ⟨o⟩ := req
  cases o with
  | none => rfl
  | some fl =>
    have hrp : runPipeline ops p f (replaceNetVals g fl.table) =
        runPipeline ops p f fl.table := by
      unfold runPipeline
      rw [readAndClean_replaceNet]
    by_cases hemp : fl.filename = ""
    · simp [forecast, reqReplaceNet, hemp]
    · by_cases hext : csvOrExcel fl.filename
      · simp [forecast, reqReplaceNet, hemp, hext, hrp]
      · simp [forecast, reqReplaceNet, hemp, hext]


end CashFlowLDC
